import Mathlib

/-!
Verification of the mesoSPIM acquisition orchestration engine
(`src/mesoSPIM/src/mesoSPIM_Core.py`).

The engine (`mesoSPIM_Core`) is embedded shallowly: its mutable attributes
(`self.state`, `self.stopflag`, the two shutters, the running counters) become
a Lean record `CoreState`, and every outward signal emission or hardware call
becomes an `Event` appended to a trace field.  Qt's cooperative event
processing (`QApplication.processEvents()`) is modelled by a stop schedule
`sched : Nat → Bool`: the engine runs single-threaded, so the `stop()` slot
can only run at a `processEvents()` yield point; `sched n = true` means a stop
request is delivered at the n-th yield point of the run.

Events that are emitted while a given acquisition of a list is being processed
are annotated with the index of that acquisition (the engine's
`self.acquisition_count` at emission time); this ghost annotation only records
trace structure and does not alter control flow.

Python floats that the claims never compute with (positions, step sizes,
waveform amplitudes...) are modelled as `Int`.
-/

/-- The `mesoSPIM_StateSingleton` key/value store, restricted to the keys the
claims read or write.  Modelled from the spec: the class itself lives in
`mesoSPIM_State.py`, which is not among the provided sources; per spec §3 it
is a mapping of named parameters where readers always observe fully written
values. -/
structure SharedState where
  state : String
  shutterconfig : String
  shutterstate : Bool
  etl_l_amplitude : Int
  etl_r_amplitude : Int
  pixelsize : Int
  ETL_cfg_file : String
  etl_l_offset : Int
  etl_r_offset : Int
  galvo_l_frequency : Int
  galvo_l_amplitude : Int
  galvo_l_offset : Int
  galvo_r_amplitude : Int
  galvo_r_offset : Int
  camera_exposure_time : Int
  camera_line_interval : Int
  deriving Repr, DecidableEq

/-- One planned imaging stack.  Modelled from the spec: the `Acquisition`
class lives in `utils/acquisitions.py`, which is not among the provided
sources; per spec §3 it carries folder/filename, filter, zoom, laser,
intensity, shutter configuration, axis positions, z step and plane count, and
is immutable during execution. -/
structure Acquisition where
  filename : String
  folder : String
  filter : String
  zoom : String
  laser : String
  intensity : Int
  shutter : String
  x_pos : Int
  y_pos : Int
  f_pos : Int
  z_start : Int
  z_end : Int
  z_step : Int
  planes : Nat
  deriving Repr, DecidableEq

/-- Modelled from the spec: `Acquisition.get_image_count()` (in the missing
`utils/acquisitions.py`) returns the plane count of the stack (spec §3,
"Derived values: ... image count"). -/
def Acquisition.get_image_count (a : Acquisition) : Nat := a.planes

/-- An acquisition list is an ordered sequence of acquisitions (spec §3). -/
abbrev AcquisitionList := List Acquisition

/-- Modelled from the spec: `AcquisitionList.get_image_count()` (in the
missing `utils/acquisitions.py`) returns the total image count across all
members (spec §3, §4.2 step 3). -/
def AcquisitionList.get_image_count (l : AcquisitionList) : Nat :=
  (l.map Acquisition.get_image_count).sum

/-- The contents of the `<basename>_meta.txt` sidecar record, one field per
`write_line` call of `write_metadata`. -/
structure MetadataRecord where
  path : String
  z_stepsize : Int
  laser : String
  intensity : Int
  zoom : String
  pixelsize : Int
  filter : String
  shutter : String
  x_pos : Int
  y_pos : Int
  f_pos : Int
  z_start : Int
  z_end : Int
  z_planes : Nat
  etl_cfg_file : String
  etl_l_offset : Int
  etl_l_amplitude : Int
  etl_r_offset : Int
  etl_r_amplitude : Int
  galvo_l_frequency : Int
  galvo_l_amplitude : Int
  galvo_l_offset : Int
  galvo_r_amplitude : Int
  galvo_r_offset : Int
  camera_exposure : Int
  camera_line_interval : Int
  deriving Repr, DecidableEq

/-- The record written by `write_metadata(acq)`: each field is the
`Acquisition` or `SharedState` value read at the moment of the write
(source lines 558-612). -/
def mkMetadata (acq : Acquisition) (st : SharedState) : MetadataRecord :=
  { path := acq.folder ++ acq.filename
    z_stepsize := acq.z_step
    laser := acq.laser
    intensity := acq.intensity
    zoom := acq.zoom
    pixelsize := st.pixelsize
    filter := acq.filter
    shutter := acq.shutter
    x_pos := acq.x_pos
    y_pos := acq.y_pos
    f_pos := acq.f_pos
    z_start := acq.z_start
    z_end := acq.z_end
    z_planes := acq.get_image_count
    etl_cfg_file := st.ETL_cfg_file
    etl_l_offset := st.etl_l_offset
    etl_l_amplitude := st.etl_l_amplitude
    etl_r_offset := st.etl_r_offset
    etl_r_amplitude := st.etl_r_amplitude
    galvo_l_frequency := st.galvo_l_frequency
    galvo_l_amplitude := st.galvo_l_amplitude
    galvo_l_offset := st.galvo_l_offset
    galvo_r_amplitude := st.galvo_r_amplitude
    galvo_r_offset := st.galvo_r_offset
    camera_exposure := st.camera_exposure_time
    camera_line_interval := st.camera_line_interval }

/-- Outward signal emissions and hardware calls of the engine.  The `acqIdx`
argument on acquisition-scoped events is the engine's `acquisition_count` at
emission time (ghost trace annotation). -/
inductive Event where
  | gui_update (flag : Bool)
  | finished
  | move_absolute (acqIdx : Nat) (blocking : Bool)
  | move_relative (acqIdx : Nat) (blocking : Bool)
  | filter_req (acqIdx : Nat) (blocking : Bool)
  | zoom_req (acqIdx : Nat) (blocking : Bool)
  | laser_enable (acqIdx : Nat)
  | laser_req (acqIdx : Nat) (blocking : Bool)
  | intensity_req (acqIdx : Nat) (blocking : Bool)
  | prepare_series (acqIdx : Nat)
  | add_images (acqIdx : Nat) (plane : Nat)
  | end_series (acqIdx : Nat)
  | create_tasks (acqIdx : Nat)
  | write_waveforms (acqIdx : Nat)
  | start_tasks (acqIdx : Nat)
  | run_tasks (acqIdx : Nat)
  | stop_tasks (acqIdx : Nat)
  | close_tasks (acqIdx : Nat)
  | metadata (acqIdx : Nat) (rec : MetadataRecord)
  | progress (cur_acq tot_acqs cur_image images_in_acq total_image_count image_counter : Nat)
  | etl_request (left : Bool) (value : Int)
  deriving Repr, DecidableEq

/-- Which acquisition an event belongs to, when it is acquisition-scoped. -/
def tagOf : Event → Option Nat
  | .gui_update _ => none
  | .finished => none
  | .move_absolute j _ => some j
  | .move_relative j _ => some j
  | .filter_req j _ => some j
  | .zoom_req j _ => some j
  | .laser_enable j => some j
  | .laser_req j _ => some j
  | .intensity_req j _ => some j
  | .prepare_series j => some j
  | .add_images j _ => some j
  | .end_series j => some j
  | .create_tasks j => some j
  | .write_waveforms j => some j
  | .start_tasks j => some j
  | .run_tasks j => some j
  | .stop_tasks j => some j
  | .close_tasks j => some j
  | .metadata j _ => some j
  | .progress j _ _ _ _ _ => some j
  | .etl_request _ _ => none

/-- The mutable attributes of `mesoSPIM_Core`, plus the physical shutter
states (the two `NI_Shutter` device objects; modelled from the spec:
`NI_Shutter` is a pure open/closed device-state toggler, spec §2) and the
event trace.  `pe_count` counts `processEvents()` yield points. -/
structure CoreState where
  shared : SharedState
  stopflag : Bool
  shutter_left_open : Bool
  shutter_right_open : Bool
  image_count : Nat
  acquisition_count : Nat
  total_acquisition_count : Nat
  total_image_count : Nat
  pe_count : Nat
  trace : List Event
  deriving Repr, DecidableEq

/-- Append one emitted event to the trace. -/
def emitE (e : Event) (s : CoreState) : CoreState :=
  { s with trace := s.trace ++ [e] }

/-- `stop()` (source lines 230-235): sets the cooperative stop flag, sets
`state['state']='idle'`, emits `sig_update_gui_from_state(False)` and
`sig_finished`. -/
def stop (s : CoreState) : CoreState :=
  emitE .finished (emitE (.gui_update false)
    { s with stopflag := true, shared := { s.shared with state := "idle" } })

/-- `QtWidgets.QApplication.processEvents()`: the engine yields to the Qt
event loop; if the stop schedule delivers a stop request at this yield point,
the `stop()` slot runs now (the engine is single threaded, so this is the
only place a stop request can take effect). -/
def processEvents (sched : Nat → Bool) (s : CoreState) : CoreState :=
  let s' := if sched s.pe_count then stop s else s
  { s' with pe_count := s'.pe_count + 1 }

/-- `send_progress(...)` (source lines 237-252): emits one progress record. -/
def send_progress (cur_acq tot_acqs cur_image images_in_acq total_image_count
    image_counter : Nat) (s : CoreState) : CoreState :=
  emitE (.progress cur_acq tot_acqs cur_image images_in_acq total_image_count
    image_counter) s

/-- `set_shutterconfig(shutterconfig)` (source lines 306-307). -/
def set_shutterconfig (v : String) (s : CoreState) : CoreState :=
  { s with shared := { s.shared with shutterconfig := v } }

/-- `open_shutters()` (source lines 309-325): opens left/right shutters by the
configured pattern, any unrecognized pattern opening both, then records
`shutterstate = True`. -/
def open_shutters (s : CoreState) : CoreState :=
  if s.shared.shutterconfig = "Both" then
    { s with shutter_left_open := true, shutter_right_open := true,
             shared := { s.shared with shutterstate := true } }
  else if s.shared.shutterconfig = "Left" then
    { s with shutter_left_open := true, shutter_right_open := false,
             shared := { s.shared with shutterstate := true } }
  else if s.shared.shutterconfig = "Right" then
    { s with shutter_right_open := true, shutter_left_open := false,
             shared := { s.shared with shutterstate := true } }
  else
    { s with shutter_right_open := true, shutter_left_open := true,
             shared := { s.shared with shutterstate := true } }

/-- `close_shutters()` (source lines 327-330): closes both shutters
unconditionally and records `shutterstate = False`. -/
def close_shutters (s : CoreState) : CoreState :=
  { s with shutter_left_open := false, shutter_right_open := false,
           shared := { s.shared with shutterstate := false } }

/-- `self.waveformer.create_tasks()`: allocates hardware task buffers
(the waveform generator itself is an external collaborator, spec §4.3). -/
def waveformer_create_tasks (s : CoreState) : CoreState :=
  emitE (.create_tasks s.acquisition_count) s

def waveformer_write_waveforms (s : CoreState) : CoreState :=
  emitE (.write_waveforms s.acquisition_count) s

def waveformer_start_tasks (s : CoreState) : CoreState :=
  emitE (.start_tasks s.acquisition_count) s

def waveformer_run_tasks (s : CoreState) : CoreState :=
  emitE (.run_tasks s.acquisition_count) s

def waveformer_stop_tasks (s : CoreState) : CoreState :=
  emitE (.stop_tasks s.acquisition_count) s

def waveformer_close_tasks (s : CoreState) : CoreState :=
  emitE (.close_tasks s.acquisition_count) s

/-- `snap_image()` (source lines 341-354): one full single-shot waveform
cycle, create through close. -/
def snap_image (s : CoreState) : CoreState :=
  waveformer_close_tasks (waveformer_stop_tasks (waveformer_run_tasks
    (waveformer_start_tasks (waveformer_write_waveforms
      (waveformer_create_tasks s)))))

/-- `prepare_image_series()` (source lines 356-359): create + write only. -/
def prepare_image_series (s : CoreState) : CoreState :=
  waveformer_write_waveforms (waveformer_create_tasks s)

/-- `snap_image_in_series()` (source lines 361-365): start + run + stop. -/
def snap_image_in_series (s : CoreState) : CoreState :=
  waveformer_stop_tasks (waveformer_run_tasks (waveformer_start_tasks s))

/-- `close_image_series()` (source lines 367-369). -/
def close_image_series (s : CoreState) : CoreState :=
  waveformer_close_tasks s

/-- `prepare_acquisition(acq)` (source lines 439-453): blocking move to the
start point, set the shutter configuration locally, blocking
filter/zoom/laser/intensity application (`set_laser` also enables the laser
line), signal the camera to prepare the series, create + write the waveform
tasks, write the metadata record. -/
def prepare_acquisition (acq : Acquisition) (s : CoreState) : CoreState :=
  let s1 := emitE (.move_absolute s.acquisition_count true) s
  let s2 := set_shutterconfig acq.shutter s1
  let s3 := emitE (.filter_req s2.acquisition_count true) s2
  let s4 := emitE (.zoom_req s3.acquisition_count true) s3
  let s5 := emitE (.laser_enable s4.acquisition_count) s4
  let s6 := emitE (.laser_req s5.acquisition_count true) s5
  let s7 := emitE (.intensity_req s6.acquisition_count true) s6
  let s8 := emitE (.prepare_series s7.acquisition_count) s7
  let s9 := prepare_image_series s8
  emitE (.metadata s9.acquisition_count (mkMetadata acq s9.shared)) s9

/-- One iteration of the per-plane loop body of `run_acquisition` (source
lines 464-477): increment `image_count`, run one in-series waveform cycle,
signal the camera to append the frame, yield to the event loop, blocking
relative z move, emit progress. -/
def planeBody (sched : Nat → Bool) (steps i : Nat) (s : CoreState) : CoreState :=
  let s1 := { s with image_count := s.image_count + 1 }
  let s2 := snap_image_in_series s1
  let s3 := emitE (.add_images s2.acquisition_count i) s2
  let s4 := processEvents sched s3
  let s5 := emitE (.move_relative s4.acquisition_count true) s4
  send_progress s5.acquisition_count s5.total_acquisition_count i steps
    s5.total_image_count s5.image_count s5

/-- The `for i in range(steps)` loop of `run_acquisition` (source lines
459-477); `n` is the number of remaining iterations (`n = steps - i`).  Each
iteration first polls the stop flag: if set, the image series is closed, the
end-of-series signal is emitted, and the loop breaks. -/
def planeLoop (sched : Nat → Bool) (steps : Nat) : Nat → Nat → CoreState → CoreState
  | 0, _, s => s
  | n + 1, i, s =>
    if s.stopflag then
      emitE (.end_series s.acquisition_count) (close_image_series s)
    else
      planeLoop sched steps n (i + 1) (planeBody sched steps i s)

/-- `run_acquisition(acq)` (source lines 455-478): open shutters, run the
per-plane loop, close shutters. -/
def run_acquisition (sched : Nat → Bool) (acq : Acquisition) (s : CoreState) :
    CoreState :=
  close_shutters (planeLoop sched acq.get_image_count acq.get_image_count 0
    (open_shutters s))

/-- `close_acquisition(acq)` (source lines 481-486): if not stopped, blocking
move back to the start point and close the image series; emit the
end-of-series signal either way; increment `acquisition_count`. -/
def close_acquisition (acq : Acquisition) (s : CoreState) : CoreState :=
  let s1 := if s.stopflag = false then
      close_image_series (emitE (.move_absolute s.acquisition_count true) s)
    else s
  let s2 := emitE (.end_series s1.acquisition_count) s1
  { s2 with acquisition_count := s2.acquisition_count + 1 }

/-- One member of the `run_acquisition_list` loop body (source lines
429-432). -/
def run_one (sched : Nat → Bool) (acq : Acquisition) (s : CoreState) : CoreState :=
  close_acquisition acq (run_acquisition sched acq (prepare_acquisition acq s))

/-- `run_acquisition_list(acq_list)` (source lines 419-432): processes every
member in list order, with no stop check at the list-entry boundary. -/
def run_acquisition_list (sched : Nat → Bool) : List Acquisition → CoreState → CoreState
  | [], s => s
  | acq :: rest, s => run_acquisition_list sched rest (run_one sched acq s)

/-- `prepare_acquisition_list(acq_list)` (source lines 410-417). -/
def prepare_acquisition_list (acq_list : List Acquisition) (s : CoreState) :
    CoreState :=
  { s with image_count := 0, acquisition_count := 0,
           total_acquisition_count := acq_list.length,
           total_image_count := AcquisitionList.get_image_count acq_list }

/-- `close_acquisition_list(acq_list)` (source lines 434-437): if not
stopped, non-blocking move to the list start point; emit `sig_finished`. -/
def close_acquisition_list (s : CoreState) : CoreState :=
  let s1 := if s.stopflag = false then
      emitE (.move_absolute s.acquisition_count false) s
    else s
  emitE .finished s1

/-- `start(row)` (source lines 392-408), with the resolved acquisition list
passed directly: clear the stop flag, emit the GUI update, prepare, run and
close the list. -/
def start (sched : Nat → Bool) (acq_list : List Acquisition) (s : CoreState) :
    CoreState :=
  let s1 := { s with stopflag := false }
  let s2 := emitE (.gui_update true) s1
  let s3 := prepare_acquisition_list acq_list s2
  let s4 := run_acquisition_list sched acq_list s3
  let s5 := close_acquisition_list s4
  emitE (.gui_update false) s5

/-- Modelled from the spec: `sig_state_request` with key `etl_l_amplitude` is
handled by the waveform generator's `state_request_handler`
(`mesoSPIM_WaveFormGenerator.py`, not among the provided sources), which
stores the value as the current SharedState ETL amplitude parameter (spec §3,
§4.5). -/
def request_etl_l_amplitude (v : Int) (s : CoreState) : CoreState :=
  { s with shared := { s.shared with etl_l_amplitude := v },
           trace := s.trace ++ [.etl_request true v] }

/-- Modelled from the spec: as `request_etl_l_amplitude`, for the right ETL. -/
def request_etl_r_amplitude (v : Int) (s : CoreState) : CoreState :=
  { s with shared := { s.shared with etl_r_amplitude := v },
           trace := s.trace ++ [.etl_request false v] }

/-- The `while self.stopflag is False` loop of `visual_mode` (source lines
531-538): in-series snap, yield, re-open shutters.  `fuel` bounds the number
of iterations modelled; `none` means the loop was still running when the fuel
ran out (the run is only specified for schedules under which it
terminates). -/
def visualLoop (sched : Nat → Bool) : Nat → CoreState → Option CoreState
  | 0, _ => none
  | fuel + 1, s =>
    if s.stopflag then some s
    else visualLoop sched fuel (open_shutters (processEvents sched
      (snap_image_in_series s)))

/-- `visual_mode()` (source lines 520-546): save both ETL amplitudes, request
them zeroed, prepare an image series, clear the stop flag, run the preview
loop, close series and shutters, signal completion, then request the saved
amplitudes restored. -/
def visual_mode (sched : Nat → Bool) (fuel : Nat) (s : CoreState) :
    Option CoreState :=
  let old_l_amp := s.shared.etl_l_amplitude
  let old_r_amp := s.shared.etl_r_amplitude
  let s1 := request_etl_r_amplitude 0 (request_etl_l_amplitude 0 s)
  let s2 := prepare_image_series s1
  let s3 := { s2 with stopflag := false }
  let s4 := open_shutters s3
  match visualLoop sched fuel s4 with
  | none => none
  | some s5 =>
    let s6 := close_shutters (close_image_series s5)
    let s7 := emitE .finished s6
    some (request_etl_r_amplitude old_r_amp (request_etl_l_amplitude old_l_amp s7))

/-- A Python exception escaping a method. -/
inductive PyErr where
  | nameError (n : String)
  deriving Repr, DecidableEq

/-- The names bound at module scope of `mesoSPIM_Core.py` (its imports and
the class definition, source lines 5-31).  Inside a method body, a bare name
that is not a local variable resolves against this scope (then builtins). -/
def module_scope_names : List String :=
  ["os", "np", "time", "signal", "csv", "traceback",
   "QtWidgets", "QtCore", "QtGui",
   "mesoSPIM_StateSingleton", "NI_Shutter", "mesoSPIM_HamamatsuCamera",
   "mesoSPIM_LaserEnabler", "mesoSPIM_Serial", "mesoSPIM_WaveFormGenerator",
   "AcquisitionList", "Acquisition", "mesoSPIM_Core"]

/-- Resolution of a bare (non-builtin) name inside a method of
`mesoSPIM_Core`: a `NameError` is raised when the name is bound neither
locally nor at module scope.  `QApplication` is such a name. -/
def lookupName (n : String) : Except PyErr Unit :=
  if module_scope_names.contains n then .ok () else .error (.nameError n)

/-- Result of running a mode whose loop can raise or run out of fuel. -/
inductive LoopResult where
  | done (s : CoreState)
  | raised (e : PyErr) (s : CoreState)
  | fuelOut
  deriving Repr, DecidableEq

/-- The body of one `lightsheet_alignment_mode` loop iteration up to the
`QApplication.processEvents()` call (source lines 509-514): open left
shutter, single-shot snap, close left shutter, open right shutter, snap,
close right shutter. -/
def alignmentBody (s : CoreState) : CoreState :=
  let s1 := { s with shutter_left_open := true }
  let s2 := snap_image s1
  let s3 := { s2 with shutter_left_open := false }
  let s4 := { s3 with shutter_right_open := true }
  let s5 := snap_image s4
  { s5 with shutter_right_open := false }

/-- The `while self.stopflag is False` loop of `lightsheet_alignment_mode`
(source lines 508-515).  After the shutter/snap sequence the source calls
`QApplication.processEvents()` with the bare name `QApplication`, which is
resolved through `lookupName`. -/
def lightsheetLoop (sched : Nat → Bool) : Nat → CoreState → LoopResult
  | 0, _ => .fuelOut
  | fuel + 1, s =>
    if s.stopflag then .done s
    else
      let s' := alignmentBody s
      match lookupName "QApplication" with
      | .error e => .raised e s'
      | .ok _ => lightsheetLoop sched fuel (processEvents sched s')

/-- `lightsheet_alignment_mode()` (source lines 500-518): clear the stop
flag, run the alternating-shutter loop, then close shutters and signal
completion.  The loop body has no exception handler, so an error raised
inside it escapes the method. -/
def lightsheet_alignment_mode (sched : Nat → Bool) (fuel : Nat)
    (s : CoreState) : LoopResult :=
  match lightsheetLoop sched fuel { s with stopflag := false } with
  | .done s' => .done (emitE .finished (close_shutters s'))
  | r => r

/-- `execute_script(script)` (source lines 488-498).  The opaque `exec` of
the script with engine-internal bindings is modelled as an arbitrary total
transformation of the engine state that may additionally report a raised
exception; the partial effects of a failing script are its returned state.
(`exec` of a non-terminating script is outside the model.)  The bare
`except:` catches every exception, prints the traceback and continues, so
both branches fall through to `sig_finished`, `state='idle'` and the GUI
update. -/
def execute_script (script : CoreState → CoreState × Option PyErr)
    (s : CoreState) : CoreState :=
  let s1 := emitE (.gui_update true) s
  let s2 := { s1 with shared := { s1.shared with state := "running_script" } }
  let s3 := (script s2).1
  let s4 := emitE .finished s3
  let s5 := { s4 with shared := { s4.shared with state := "idle" } }
  emitE (.gui_update false) s5

/-! ## Expected traces

Closed-form descriptions of the event sequences the engine emits on the runs
the claims quantify over, used by the characterization lemmas below. -/

/-- The events `prepare_acquisition` emits before the metadata write. -/
def prepareSignals (c : Nat) : List Event :=
  [.move_absolute c true, .filter_req c true, .zoom_req c true,
   .laser_enable c, .laser_req c true, .intensity_req c true,
   .prepare_series c, .create_tasks c, .write_waveforms c]

/-- Everything `prepare_acquisition` emits. -/
def prepareTrace (c : Nat) (a : Acquisition) (σ : SharedState) : List Event :=
  prepareSignals c ++ [.metadata c (mkMetadata a σ)]

/-- Events of one plane-loop iteration that does not observe a stop request. -/
def planeEvts (c totA steps totI i imgc : Nat) : List Event :=
  [.start_tasks c, .run_tasks c, .stop_tasks c, .add_images c i,
   .move_relative c true, .progress c totA i steps totI imgc]

/-- Events of `n` consecutive stop-free plane-loop iterations starting at
plane `i` with `image_count = imgc`. -/
def planesTrace (c totA steps totI : Nat) : Nat → Nat → Nat → List Event
  | 0, _, _ => []
  | n + 1, i, imgc =>
    planeEvts c totA steps totI i (imgc + 1) ++
      planesTrace c totA steps totI n (i + 1) (imgc + 1)

/-- Events of the plane-loop iteration during whose yield point the stop
request arrives (the `stop()` slot emits its GUI update and `sig_finished`
in the middle of the body). -/
def stopIterEvts (c totA steps totI i imgc : Nat) : List Event :=
  [.start_tasks c, .run_tasks c, .stop_tasks c, .add_images c i,
   .gui_update false, .finished, .move_relative c true,
   .progress c totA i steps totI imgc]

/-- Everything one acquisition emits on the stop-free path. -/
def acqTraceNormal (c totA totI : Nat) (a : Acquisition) (σ : SharedState)
    (imgc : Nat) : List Event :=
  prepareTrace c a σ ++
    planesTrace c totA a.get_image_count totI a.get_image_count 0 imgc ++
    [.move_absolute c true, .close_tasks c, .end_series c]

/-- Everything one acquisition emits when the stop request arrives at the
yield point of its plane `t` (0-based) and is observed at plane `t + 1`. -/
def acqTraceStoppedAt (c totA totI : Nat) (a : Acquisition) (σ : SharedState)
    (imgc t : Nat) : List Event :=
  prepareTrace c a σ ++
    planesTrace c totA a.get_image_count totI t 0 imgc ++
    stopIterEvts c totA a.get_image_count totI t (imgc + t + 1) ++
    [.close_tasks c, .end_series c, .end_series c]

/-- Everything one acquisition emits when the stop flag is already set when
its plane loop starts (the flag is observed at plane 0; the full prepare
step has already run). -/
def stoppedAcqEvents (c : Nat) (a : Acquisition) (σ : SharedState) :
    List Event :=
  prepareTrace c a σ ++ [.close_tasks c, .end_series c, .end_series c]

/-- Events of a stop-free run over a list of acquisitions, starting at
acquisition index `c` with `image_count = imgc`. -/
def listTraceNormal (totA totI : Nat) (σ : SharedState) :
    List Acquisition → Nat → Nat → List Event
  | [], _, _ => []
  | a :: rest, c, imgc =>
    acqTraceNormal c totA totI a σ imgc ++
      listTraceNormal totA totI σ rest (c + 1) (imgc + a.get_image_count)

/-- Events of a run over a list of acquisitions entered with the stop flag
already set. -/
def listTraceStopped (σ : SharedState) : List Acquisition → Nat → List Event
  | [], _ => []
  | a :: rest, c => stoppedAcqEvents c a σ ++ listTraceStopped σ rest (c + 1)

/-- The progress channel payload (spec §3). -/
structure ProgressRecord where
  cur_acq : Nat
  tot_acqs : Nat
  cur_image : Nat
  images_in_acq : Nat
  total_image_count : Nat
  image_counter : Nat
  deriving Repr, DecidableEq

/-- Extract a progress record from an event. -/
def progOf : Event → Option ProgressRecord
  | .progress a b c d e f => some ⟨a, b, c, d, e, f⟩
  | _ => none

/-- All progress records of a trace, in emission order. -/
def progressRecords (t : List Event) : List ProgressRecord := t.filterMap progOf

/-- The events of a trace that belong to acquisition `j`. -/
def eventsTagged (j : Nat) (t : List Event) : List Event :=
  t.filter (fun e => tagOf e == some j)

/-- Number of `create_tasks` hardware calls in a trace. -/
def countCreates (t : List Event) : Nat :=
  (t.filter (fun e => match e with | .create_tasks _ => true | _ => false)).length

/-- Number of `close_tasks` hardware calls in a trace. -/
def countCloses (t : List Event) : Nat :=
  (t.filter (fun e => match e with | .close_tasks _ => true | _ => false)).length

/-- The stop schedule that delivers a single stop request at yield point `t`. -/
def schedAt (t : Nat) : Nat → Bool := fun n => n == t

/-- The stop schedule under which no stop request ever arrives. -/
def schedNever : Nat → Bool := fun _ => false

/-- Whether `open_shutters` leaves the left shutter open for a given
configuration value. -/
def leftOpenFor (cfg : String) : Bool := if cfg = "Right" then false else true

/-- Whether `open_shutters` leaves the right shutter open for a given
configuration value. -/
def rightOpenFor (cfg : String) : Bool := if cfg = "Left" then false else true

/-- Specification function: the state reached by a stop-free run over a list
of acquisitions (mirrored by `run_acquisition_list` under a schedule that
never delivers a stop request). -/
def runListNormalState : List Acquisition → CoreState → CoreState
  | [], s => s
  | a :: rest, s => runListNormalState rest
      { s with
          shared := { s.shared with shutterconfig := a.shutter, shutterstate := false },
               shutter_left_open := false, shutter_right_open := false,
               image_count := s.image_count + a.get_image_count,
               pe_count := s.pe_count + a.get_image_count,
               acquisition_count := s.acquisition_count + 1,
               trace := s.trace ++ acqTraceNormal s.acquisition_count
                 s.total_acquisition_count s.total_image_count a s.shared
                 s.image_count }

/-- Specification function: the state reached by a run over a list of
acquisitions that is entered with the stop flag already set (mirrored by
`run_acquisition_list` in that situation, for members with at least one
plane). -/
def runListStoppedState : List Acquisition → CoreState → CoreState
  | [], s => s
  | a :: rest, s => runListStoppedState rest
      { s with
          shared := { s.shared with shutterconfig := a.shutter, shutterstate := false },
               shutter_left_open := false, shutter_right_open := false,
               acquisition_count := s.acquisition_count + 1,
               trace := s.trace ++ stoppedAcqEvents s.acquisition_count a s.shared }

/-- The acquisition indices of the end-of-series signals of a trace, in
emission order. -/
def endSeriesTags (t : List Event) : List Nat :=
  t.filterMap (fun e => match e with | .end_series c => some c | _ => none)

/-- Occurrence count of a number in a list. -/
def natCount (j : Nat) : List Nat → Nat
  | [] => 0
  | c :: rest => (if c = j then 1 else 0) + natCount j rest

/-- A concrete shared state used by the witness theorems. -/
def sigma0 : SharedState :=
  { state := "idle", shutterconfig := "Both", shutterstate := false,
    etl_l_amplitude := 5, etl_r_amplitude := 7, pixelsize := 1,
    ETL_cfg_file := "etl.csv", etl_l_offset := 3, etl_r_offset := 4,
    galvo_l_frequency := 99, galvo_l_amplitude := 2, galvo_l_offset := 0,
    galvo_r_amplitude := 2, galvo_r_offset := 0,
    camera_exposure_time := 20, camera_line_interval := 1 }

/-- A concrete engine state (fresh engine, nothing emitted yet) used by the
witness theorems. -/
def s0 : CoreState :=
  { shared := sigma0, stopflag := false, shutter_left_open := false,
    shutter_right_open := false, image_count := 0, acquisition_count := 0,
    total_acquisition_count := 0, total_image_count := 0, pe_count := 0,
    trace := [] }

/-- A concrete one-plane acquisition used by the witness theorems. -/
def acqA : Acquisition :=
  { filename := "stack0.raw", folder := "/data/", filter := "525/50",
    zoom := "1x", laser := "488", intensity := 10, shutter := "Left",
    x_pos := 0, y_pos := 0, f_pos := 0, z_start := 0, z_end := 2,
    z_step := 2, planes := 1 }

/-- A concrete three-plane acquisition used by the witness theorems. -/
def acqB : Acquisition :=
  { acqA with filename := "stack1.raw", planes := 3, shutter := "Right" }

/-- A concrete two-plane acquisition with an unrecognized shutter
configuration, used by the witness theorems. -/
def acqC : Acquisition :=
  { acqA with filename := "stack2.raw", planes := 2, shutter := "Weird" }

/-! ## Basic facts about the embedded operations -/

theorem mkMetadata_upd_cfg (a : Acquisition) (σ : SharedState) (x : String) :
    mkMetadata a { σ with shutterconfig := x } = mkMetadata a σ := rfl

theorem mkMetadata_upd_ss (a : Acquisition) (σ : SharedState) (y : Bool) :
    mkMetadata a { σ with shutterstate := y } = mkMetadata a σ := rfl

theorem mkMetadata_upd_state (a : Acquisition) (σ : SharedState) (z : String) :
    mkMetadata a { σ with state := z } = mkMetadata a σ := rfl

theorem mkMetadata_upd2 (a : Acquisition) (σ : SharedState) (x : String) (y : Bool) :
    mkMetadata a { σ with shutterconfig := x, shutterstate := y } = mkMetadata a σ := rfl

theorem mkMetadata_upd3 (a : Acquisition) (σ : SharedState) (x : String) (y : Bool)
    (z : String) :
    mkMetadata a { σ with shutterconfig := x, shutterstate := y, state := z }
      = mkMetadata a σ := rfl

theorem get_image_count_nil : AcquisitionList.get_image_count [] = 0 := rfl

theorem get_image_count_cons (a : Acquisition) (l : List Acquisition) :
    AcquisitionList.get_image_count (a :: l)
      = a.get_image_count + AcquisitionList.get_image_count l := by
  simp [AcquisitionList.get_image_count]

theorem get_image_count_append (u v : List Acquisition) :
    AcquisitionList.get_image_count (u ++ v)
      = AcquisitionList.get_image_count u + AcquisitionList.get_image_count v := by
  simp [AcquisitionList.get_image_count]

theorem open_shutters_eq (s : CoreState) :
    open_shutters s =
      { s with shutter_left_open := leftOpenFor s.shared.shutterconfig,
               shutter_right_open := rightOpenFor s.shared.shutterconfig,
               shared := { s.shared with shutterstate := true } } := by
  unfold open_shutters leftOpenFor rightOpenFor
  by_cases h1 : s.shared.shutterconfig = "Both" <;>
    by_cases h2 : s.shared.shutterconfig = "Left" <;>
      by_cases h3 : s.shared.shutterconfig = "Right" <;>
        simp_all

theorem schedAt_self (t : Nat) : schedAt t t = true := by simp [schedAt]

theorem schedAt_ne {n t : Nat} (h : n ≠ t) : schedAt t n = false := by
  simp [schedAt, h]

/-! ## Characterization of the per-plane loop -/

theorem planeBody_noTrig (sched : Nat → Bool) (steps i : Nat) (s : CoreState)
    (h : sched s.pe_count = false) :
    planeBody sched steps i s =
      { s with image_count := s.image_count + 1, pe_count := s.pe_count + 1,
               trace := s.trace ++ planeEvts s.acquisition_count
                 s.total_acquisition_count steps s.total_image_count i
                 (s.image_count + 1) } := by
  simp [planeBody, snap_image_in_series, waveformer_start_tasks,
        waveformer_run_tasks, waveformer_stop_tasks, emitE, processEvents,
        send_progress, h, planeEvts]

theorem planeBody_trig (sched : Nat → Bool) (steps i : Nat) (s : CoreState)
    (h : sched s.pe_count = true) :
    planeBody sched steps i s =
      { s with stopflag := true, shared := { s.shared with state := "idle" },
               image_count := s.image_count + 1, pe_count := s.pe_count + 1,
               trace := s.trace ++ stopIterEvts s.acquisition_count
                 s.total_acquisition_count steps s.total_image_count i
                 (s.image_count + 1) } := by
  simp [planeBody, snap_image_in_series, waveformer_start_tasks,
        waveformer_run_tasks, waveformer_stop_tasks, emitE, processEvents,
        stop, send_progress, h, stopIterEvts]

theorem planeLoop_noTrig (sched : Nat → Bool) (steps : Nat) :
    ∀ (n i : Nat) (s : CoreState), s.stopflag = false →
      (∀ m, m < n → sched (s.pe_count + m) = false) →
      planeLoop sched steps n i s =
        { s with image_count := s.image_count + n, pe_count := s.pe_count + n,
                 trace := s.trace ++ planesTrace s.acquisition_count
                   s.total_acquisition_count steps s.total_image_count n i
                   s.image_count } := by
  intro n
  induction n with
  | zero => intro i s hs _; simp [planeLoop, planesTrace]
  | succ n ih =>
    intro i s hs hm
    have h0 : sched s.pe_count = false := by
      have := hm 0 (Nat.succ_pos n); simpa using this
    rw [planeLoop, if_neg (by simp [hs]),
        planeBody_noTrig sched steps i s h0, ih]
    · simp [planesTrace, List.append_assoc]
      omega
    · simp [hs]
    · intro m hmn
      have := hm (m + 1) (by omega)
      simpa [Nat.add_assoc, Nat.add_comm 1 m] using this

theorem planeLoop_alreadyStopped (sched : Nat → Bool) (steps n i : Nat)
    (s : CoreState) (h : s.stopflag = true) (hn : 1 ≤ n) :
    planeLoop sched steps n i s =
      { s with trace := s.trace ++ [.close_tasks s.acquisition_count,
                 .end_series s.acquisition_count] } := by
  cases n with
  | zero => omega
  | succ n =>
    simp [planeLoop, h, close_image_series, waveformer_close_tasks, emitE]

theorem planeLoop_trigAt (sched : Nat → Bool) (steps : Nat) :
    ∀ (t n i : Nat) (s : CoreState), s.stopflag = false →
      (∀ m, m < t → sched (s.pe_count + m) = false) →
      sched (s.pe_count + t) = true → t + 1 < n →
      planeLoop sched steps n i s =
        { s with stopflag := true,
                 shared := { s.shared with state := "idle" },
                 image_count := s.image_count + (t + 1),
                 pe_count := s.pe_count + (t + 1),
                 trace := s.trace
                   ++ planesTrace s.acquisition_count s.total_acquisition_count
                        steps s.total_image_count t i s.image_count
                   ++ stopIterEvts s.acquisition_count s.total_acquisition_count
                        steps s.total_image_count (i + t) (s.image_count + t + 1)
                   ++ [.close_tasks s.acquisition_count,
                       .end_series s.acquisition_count] } := by
  intro t
  induction t with
  | zero =>
    intro n i s hs hm htrig hn
    obtain ⟨n', rfl⟩ : ∃ n', n = n' + 1 := ⟨n - 1, by omega⟩
    have h0 : sched s.pe_count = true := by simpa using htrig
    rw [planeLoop, if_neg (by simp [hs]), planeBody_trig sched steps i s h0,
        planeLoop_alreadyStopped sched steps n' (i + 1) _ (by simp) (by omega)]
    simp [planesTrace, List.append_assoc]
  | succ t ih =>
    intro n i s hs hm htrig hn
    obtain ⟨n', rfl⟩ : ∃ n', n = n' + 1 := ⟨n - 1, by omega⟩
    have h0 : sched s.pe_count = false := by
      have := hm 0 (Nat.succ_pos t); simpa using this
    rw [planeLoop, if_neg (by simp [hs]),
        planeBody_noTrig sched steps i s h0, ih]
    · have e1 : i + 1 + t = i + (t + 1) := by omega
      have e2 : s.image_count + 1 + t + 1 = s.image_count + (t + 1) + 1 := by
        omega
      have e3 : s.image_count + 1 + (t + 1) = s.image_count + (t + 1 + 1) := by
        omega
      have e4 : s.pe_count + 1 + (t + 1) = s.pe_count + (t + 1 + 1) := by omega
      simp [planesTrace, List.append_assoc, e1, e2, e3, e4]
    · simp [hs]
    · intro m hmt
      have := hm (m + 1) (by omega)
      simpa [Nat.add_assoc, Nat.add_comm 1 m] using this
    · have := htrig
      simpa [Nat.add_assoc, Nat.add_comm 1 t] using this
    · omega

/-! ## Characterization of one acquisition -/

theorem prepare_acquisition_eq (a : Acquisition) (s : CoreState) :
    prepare_acquisition a s =
      { s with shared := { s.shared with shutterconfig := a.shutter },
               trace := s.trace ++ prepareTrace s.acquisition_count a s.shared } := by
  simp [prepare_acquisition, set_shutterconfig, prepare_image_series,
        waveformer_create_tasks, waveformer_write_waveforms, emitE,
        prepareTrace, prepareSignals, mkMetadata_upd_cfg, List.append_assoc]

theorem close_acquisition_notStopped (a : Acquisition) (s : CoreState)
    (h : s.stopflag = false) :
    close_acquisition a s =
      { s with acquisition_count := s.acquisition_count + 1,
               trace := s.trace ++ [.move_absolute s.acquisition_count true,
                 .close_tasks s.acquisition_count,
                 .end_series s.acquisition_count] } := by
  simp [close_acquisition, close_image_series, waveformer_close_tasks, emitE,
        h, List.append_assoc]

theorem close_acquisition_stopped (a : Acquisition) (s : CoreState)
    (h : s.stopflag = true) :
    close_acquisition a s =
      { s with acquisition_count := s.acquisition_count + 1,
               trace := s.trace ++ [.end_series s.acquisition_count] } := by
  simp [close_acquisition, emitE, h]

theorem run_one_normal (sched : Nat → Bool) (a : Acquisition) (s : CoreState)
    (hs : s.stopflag = false)
    (hm : ∀ m, m < a.get_image_count → sched (s.pe_count + m) = false) :
    run_one sched a s =
      { s with
          shared := { s.shared with shutterconfig := a.shutter, shutterstate := false },
               shutter_left_open := false, shutter_right_open := false,
               image_count := s.image_count + a.get_image_count,
               pe_count := s.pe_count + a.get_image_count,
               acquisition_count := s.acquisition_count + 1,
               trace := s.trace ++ acqTraceNormal s.acquisition_count
                 s.total_acquisition_count s.total_image_count a s.shared
                 s.image_count } := by
  rw [run_one, prepare_acquisition_eq]
  rw [run_acquisition, open_shutters_eq,
      planeLoop_noTrig sched a.get_image_count a.get_image_count 0 _
        (by simp [hs]) (by intro m hm'; simpa using hm m hm')]
  rw [close_acquisition_notStopped _ _ (by simp [close_shutters, hs])]
  simp [close_shutters, acqTraceNormal, List.append_assoc]

theorem run_one_stopped (sched : Nat → Bool) (a : Acquisition) (s : CoreState)
    (hs : s.stopflag = true) (hp : 1 ≤ a.get_image_count) :
    run_one sched a s =
      { s with
          shared := { s.shared with shutterconfig := a.shutter, shutterstate := false },
               shutter_left_open := false, shutter_right_open := false,
               acquisition_count := s.acquisition_count + 1,
               trace := s.trace ++ stoppedAcqEvents s.acquisition_count a
                 s.shared } := by
  rw [run_one, prepare_acquisition_eq]
  rw [run_acquisition, open_shutters_eq,
      planeLoop_alreadyStopped sched a.get_image_count a.get_image_count 0 _
        (by simp [hs]) hp]
  rw [close_acquisition_stopped _ _ (by simp [close_shutters, hs])]
  simp [close_shutters, stoppedAcqEvents, prepareTrace, List.append_assoc]

theorem run_one_trigAt (sched : Nat → Bool) (a : Acquisition) (s : CoreState)
    (t : Nat) (hs : s.stopflag = false)
    (hm : ∀ m, m < t → sched (s.pe_count + m) = false)
    (htrig : sched (s.pe_count + t) = true) (hlt : t + 1 < a.get_image_count) :
    run_one sched a s =
      { s with stopflag := true,
               shared := { s.shared with shutterconfig := a.shutter, shutterstate := false, state := "idle" },
               shutter_left_open := false, shutter_right_open := false,
               image_count := s.image_count + (t + 1),
               pe_count := s.pe_count + (t + 1),
               acquisition_count := s.acquisition_count + 1,
               trace := s.trace ++ acqTraceStoppedAt s.acquisition_count
                 s.total_acquisition_count s.total_image_count a s.shared
                 s.image_count t } := by
  rw [run_one, prepare_acquisition_eq]
  rw [run_acquisition, open_shutters_eq,
      planeLoop_trigAt sched a.get_image_count t a.get_image_count 0 _
        (by simp [hs]) (by intro m hm'; simpa using hm m hm')
        (by simpa using htrig) hlt]
  rw [close_acquisition_stopped _ _ (by simp [close_shutters])]
  simp [close_shutters, acqTraceStoppedAt, List.append_assoc]

/-! ## Trace congruence in the shared-state snapshot

The engine only ever writes the `shutterconfig`, `shutterstate` and `state`
keys during a list run, and the metadata record reads none of them, so the
expected-trace functions are invariant under those updates. -/

theorem acqTraceNormal_congr {c totA totI imgc : Nat} {σ σ' : SharedState}
    (a : Acquisition) (h : mkMetadata a σ = mkMetadata a σ') :
    acqTraceNormal c totA totI a σ imgc = acqTraceNormal c totA totI a σ' imgc := by
  simp [acqTraceNormal, prepareTrace, h]

theorem acqTraceStoppedAt_congr {c totA totI imgc t : Nat} {σ σ' : SharedState}
    (a : Acquisition) (h : mkMetadata a σ = mkMetadata a σ') :
    acqTraceStoppedAt c totA totI a σ imgc t
      = acqTraceStoppedAt c totA totI a σ' imgc t := by
  simp [acqTraceStoppedAt, prepareTrace, h]

theorem stoppedAcqEvents_congr {c : Nat} {σ σ' : SharedState}
    (a : Acquisition) (h : mkMetadata a σ = mkMetadata a σ') :
    stoppedAcqEvents c a σ = stoppedAcqEvents c a σ' := by
  simp [stoppedAcqEvents, prepareTrace, h]

theorem listTraceNormal_congr {totA totI : Nat} {σ σ' : SharedState}
    (h : ∀ b, mkMetadata b σ = mkMetadata b σ') :
    ∀ (l : List Acquisition) (c imgc : Nat),
      listTraceNormal totA totI σ l c imgc = listTraceNormal totA totI σ' l c imgc := by
  intro l
  induction l with
  | nil => intro c imgc; rfl
  | cons a rest ih =>
    intro c imgc
    simp [listTraceNormal, ih, acqTraceNormal_congr a (h a)]

theorem listTraceStopped_congr {σ σ' : SharedState}
    (h : ∀ b, mkMetadata b σ = mkMetadata b σ') :
    ∀ (l : List Acquisition) (c : Nat),
      listTraceStopped σ l c = listTraceStopped σ' l c := by
  intro l
  induction l with
  | nil => intro c; rfl
  | cons a rest ih =>
    intro c
    simp [listTraceStopped, ih, stoppedAcqEvents_congr a (h a)]

/-! ## Characterization of list runs -/

theorem run_acquisition_list_append (sched : Nat → Bool) (u v : List Acquisition) :
    ∀ s, run_acquisition_list sched (u ++ v) s
      = run_acquisition_list sched v (run_acquisition_list sched u s) := by
  induction u with
  | nil => intro s; rfl
  | cons a rest ih =>
    intro s
    rw [List.cons_append]
    simp only [run_acquisition_list]
    exact ih _

theorem run_acquisition_list_normal (sched : Nat → Bool) :
    ∀ (l : List Acquisition) (s : CoreState), s.stopflag = false →
      (∀ m, m < AcquisitionList.get_image_count l → sched (s.pe_count + m) = false) →
      run_acquisition_list sched l s = runListNormalState l s := by
  intro l
  induction l with
  | nil => intro s _ _; rfl
  | cons a rest ih =>
    intro s hs hm
    simp only [run_acquisition_list, runListNormalState]
    rw [run_one_normal sched a s hs
        (fun m hm' => hm m (by rw [get_image_count_cons]; omega))]
    exact ih _ (by simp [hs]) (by
      intro m hm'
      have := hm (a.get_image_count + m) (by rw [get_image_count_cons]; omega)
      simpa [Nat.add_assoc] using this)

theorem run_acquisition_list_stopped (sched : Nat → Bool) :
    ∀ (l : List Acquisition) (s : CoreState), s.stopflag = true →
      (∀ b ∈ l, 1 ≤ b.get_image_count) →
      run_acquisition_list sched l s = runListStoppedState l s := by
  intro l
  induction l with
  | nil => intro s _ _; rfl
  | cons a rest ih =>
    intro s hs hb
    simp only [run_acquisition_list, runListStoppedState]
    rw [run_one_stopped sched a s hs (hb a (by simp))]
    exact ih _ (by simp [hs]) (fun b hbmem => hb b (by simp [hbmem]))

theorem runListNormalState_stopflag :
    ∀ (l : List Acquisition) (s : CoreState),
      (runListNormalState l s).stopflag = s.stopflag := by
  intro l
  induction l with
  | nil => intro s; rfl
  | cons a rest ih => intro s; rw [runListNormalState, ih]

theorem runListNormalState_image :
    ∀ (l : List Acquisition) (s : CoreState),
      (runListNormalState l s).image_count
        = s.image_count + AcquisitionList.get_image_count l := by
  intro l
  induction l with
  | nil => intro s; simp [runListNormalState, get_image_count_nil]
  | cons a rest ih =>
    intro s
    rw [runListNormalState, ih, get_image_count_cons]
    simp [Nat.add_assoc]

theorem runListNormalState_pe :
    ∀ (l : List Acquisition) (s : CoreState),
      (runListNormalState l s).pe_count
        = s.pe_count + AcquisitionList.get_image_count l := by
  intro l
  induction l with
  | nil => intro s; simp [runListNormalState, get_image_count_nil]
  | cons a rest ih =>
    intro s
    rw [runListNormalState, ih, get_image_count_cons]
    simp [Nat.add_assoc]

theorem runListNormalState_count :
    ∀ (l : List Acquisition) (s : CoreState),
      (runListNormalState l s).acquisition_count
        = s.acquisition_count + l.length := by
  intro l
  induction l with
  | nil => intro s; simp [runListNormalState]
  | cons a rest ih =>
    intro s
    rw [runListNormalState, ih]
    simp [Nat.add_assoc, Nat.add_comm 1 rest.length]

theorem runListNormalState_totA :
    ∀ (l : List Acquisition) (s : CoreState),
      (runListNormalState l s).total_acquisition_count
        = s.total_acquisition_count := by
  intro l
  induction l with
  | nil => intro s; rfl
  | cons a rest ih => intro s; rw [runListNormalState, ih]

theorem runListNormalState_totI :
    ∀ (l : List Acquisition) (s : CoreState),
      (runListNormalState l s).total_image_count = s.total_image_count := by
  intro l
  induction l with
  | nil => intro s; rfl
  | cons a rest ih => intro s; rw [runListNormalState, ih]

theorem runListNormalState_state :
    ∀ (l : List Acquisition) (s : CoreState),
      (runListNormalState l s).shared.state = s.shared.state := by
  intro l
  induction l with
  | nil => intro s; rfl
  | cons a rest ih => intro s; rw [runListNormalState, ih]

theorem runListNormalState_shared_exists :
    ∀ (l : List Acquisition) (s : CoreState), ∃ x y,
      (runListNormalState l s).shared
        = { s.shared with shutterconfig := x, shutterstate := y } := by
  intro l
  induction l with
  | nil => intro s; exact ⟨s.shared.shutterconfig, s.shared.shutterstate, rfl⟩
  | cons a rest ih =>
    intro s
    rw [runListNormalState]
    obtain ⟨x, y, h⟩ := ih
      { s with
          shared := { s.shared with shutterconfig := a.shutter, shutterstate := false },
          shutter_left_open := false, shutter_right_open := false,
          image_count := s.image_count + a.get_image_count,
          pe_count := s.pe_count + a.get_image_count,
          acquisition_count := s.acquisition_count + 1,
          trace := s.trace ++ acqTraceNormal s.acquisition_count
            s.total_acquisition_count s.total_image_count a s.shared
            s.image_count }
    exact ⟨x, y, h⟩

theorem runListNormalState_shutters :
    ∀ (l : List Acquisition) (s : CoreState), s.shutter_left_open = false →
      s.shutter_right_open = false → s.shared.shutterstate = false →
      (runListNormalState l s).shutter_left_open = false
        ∧ (runListNormalState l s).shutter_right_open = false
        ∧ (runListNormalState l s).shared.shutterstate = false := by
  intro l
  induction l with
  | nil => intro s h1 h2 h3; exact ⟨h1, h2, h3⟩
  | cons a rest ih =>
    intro s h1 h2 h3
    rw [runListNormalState]
    exact ih _ rfl rfl rfl

theorem runListNormalState_trace :
    ∀ (l : List Acquisition) (s : CoreState),
      (runListNormalState l s).trace
        = s.trace ++ listTraceNormal s.total_acquisition_count
            s.total_image_count s.shared l s.acquisition_count s.image_count := by
  intro l
  induction l with
  | nil => intro s; simp [runListNormalState, listTraceNormal]
  | cons a rest ih =>
    intro s
    rw [runListNormalState, ih]
    simp [listTraceNormal, List.append_assoc,
          listTraceNormal_congr (fun b => mkMetadata_upd2 b s.shared a.shutter false)]

theorem runListStoppedState_stopflag :
    ∀ (l : List Acquisition) (s : CoreState),
      (runListStoppedState l s).stopflag = s.stopflag := by
  intro l
  induction l with
  | nil => intro s; rfl
  | cons a rest ih => intro s; rw [runListStoppedState, ih]

theorem runListStoppedState_image :
    ∀ (l : List Acquisition) (s : CoreState),
      (runListStoppedState l s).image_count = s.image_count := by
  intro l
  induction l with
  | nil => intro s; rfl
  | cons a rest ih => intro s; rw [runListStoppedState, ih]

theorem runListStoppedState_pe :
    ∀ (l : List Acquisition) (s : CoreState),
      (runListStoppedState l s).pe_count = s.pe_count := by
  intro l
  induction l with
  | nil => intro s; rfl
  | cons a rest ih => intro s; rw [runListStoppedState, ih]

theorem runListStoppedState_count :
    ∀ (l : List Acquisition) (s : CoreState),
      (runListStoppedState l s).acquisition_count
        = s.acquisition_count + l.length := by
  intro l
  induction l with
  | nil => intro s; simp [runListStoppedState]
  | cons a rest ih =>
    intro s
    rw [runListStoppedState, ih]
    simp [Nat.add_assoc, Nat.add_comm 1 rest.length]

theorem runListStoppedState_state :
    ∀ (l : List Acquisition) (s : CoreState),
      (runListStoppedState l s).shared.state = s.shared.state := by
  intro l
  induction l with
  | nil => intro s; rfl
  | cons a rest ih => intro s; rw [runListStoppedState, ih]

theorem runListStoppedState_shutters :
    ∀ (l : List Acquisition) (s : CoreState), s.shutter_left_open = false →
      s.shutter_right_open = false → s.shared.shutterstate = false →
      (runListStoppedState l s).shutter_left_open = false
        ∧ (runListStoppedState l s).shutter_right_open = false
        ∧ (runListStoppedState l s).shared.shutterstate = false := by
  intro l
  induction l with
  | nil => intro s h1 h2 h3; exact ⟨h1, h2, h3⟩
  | cons a rest ih =>
    intro s h1 h2 h3
    rw [runListStoppedState]
    exact ih _ rfl rfl rfl

theorem runListStoppedState_trace :
    ∀ (l : List Acquisition) (s : CoreState),
      (runListStoppedState l s).trace
        = s.trace ++ listTraceStopped s.shared l s.acquisition_count := by
  intro l
  induction l with
  | nil => intro s; simp [runListStoppedState, listTraceStopped]
  | cons a rest ih =>
    intro s
    rw [runListStoppedState, ih]
    simp [listTraceStopped, List.append_assoc,
          listTraceStopped_congr (fun b => mkMetadata_upd2 b s.shared a.shutter false)]

/-! ## Projections of an event emission -/

theorem emitE_trace (e : Event) (s : CoreState) :
    (emitE e s).trace = s.trace ++ [e] := rfl

theorem emitE_image (e : Event) (s : CoreState) :
    (emitE e s).image_count = s.image_count := rfl

theorem emitE_stopflag (e : Event) (s : CoreState) :
    (emitE e s).stopflag = s.stopflag := rfl

theorem emitE_shared (e : Event) (s : CoreState) :
    (emitE e s).shared = s.shared := rfl

theorem emitE_left (e : Event) (s : CoreState) :
    (emitE e s).shutter_left_open = s.shutter_left_open := rfl

theorem emitE_right (e : Event) (s : CoreState) :
    (emitE e s).shutter_right_open = s.shutter_right_open := rfl

theorem emitE_count (e : Event) (s : CoreState) :
    (emitE e s).acquisition_count = s.acquisition_count := rfl

theorem emitE_pe (e : Event) (s : CoreState) :
    (emitE e s).pe_count = s.pe_count := rfl

/-! ## The two top-level runs the explicit claims quantify over -/

theorem start_never_facts (l : List Acquisition) (s : CoreState) :
    (start schedNever l s).trace
        = s.trace ++ [Event.gui_update true]
          ++ listTraceNormal l.length (AcquisitionList.get_image_count l)
               s.shared l 0 0
          ++ [Event.move_absolute l.length false, Event.finished,
              Event.gui_update false]
      ∧ (start schedNever l s).image_count = AcquisitionList.get_image_count l
      ∧ (start schedNever l s).stopflag = false
      ∧ (start schedNever l s).acquisition_count = l.length := by
  have hnorm := run_acquisition_list_normal schedNever l
      (prepare_acquisition_list l (emitE (.gui_update true)
        { s with stopflag := false })) rfl (fun m _ => rfl)
  have hfl : (runListNormalState l (prepare_acquisition_list l
      (emitE (.gui_update true) { s with stopflag := false }))).stopflag = false := by
    rw [runListNormalState_stopflag]
    rfl
  have hclose : close_acquisition_list (runListNormalState l
      (prepare_acquisition_list l (emitE (.gui_update true)
        { s with stopflag := false })))
      = emitE .finished (emitE (.move_absolute (runListNormalState l
          (prepare_acquisition_list l (emitE (.gui_update true)
            { s with stopflag := false }))).acquisition_count false)
          (runListNormalState l (prepare_acquisition_list l
            (emitE (.gui_update true) { s with stopflag := false })))) := by
    simp only [close_acquisition_list]
    rw [if_pos hfl]
  simp only [start]
  rw [hnorm]
  refine ⟨?_, ?_, ?_, ?_⟩
  · rw [emitE_trace, hclose, emitE_trace, emitE_trace, runListNormalState_trace,
        runListNormalState_count]
    simp [prepare_acquisition_list, emitE, List.append_assoc]
  · rw [emitE_image, hclose, emitE_image, emitE_image, runListNormalState_image]
    simp [prepare_acquisition_list, emitE]
  · rw [emitE_stopflag, hclose, emitE_stopflag, emitE_stopflag,
        runListNormalState_stopflag]
    rfl
  · rw [emitE_count, hclose, emitE_count, emitE_count, runListNormalState_count]
    simp [prepare_acquisition_list, emitE]

theorem scenario_core (sch : Nat → Bool) (l₁ l₂ : List Acquisition)
    (a : Acquisition) (t : Nat) (X : CoreState) (hfl : X.stopflag = false)
    (hm₁ : ∀ m, m < AcquisitionList.get_image_count l₁ → sch (X.pe_count + m) = false)
    (hm₂ : ∀ m, m < t →
      sch (X.pe_count + AcquisitionList.get_image_count l₁ + m) = false)
    (htrig : sch (X.pe_count + AcquisitionList.get_image_count l₁ + t) = true)
    (hlt : t + 1 < a.get_image_count)
    (htail : ∀ b ∈ l₂, 1 ≤ b.get_image_count) :
    (run_acquisition_list sch (l₁ ++ a :: l₂) X).trace
        = X.trace
          ++ listTraceNormal X.total_acquisition_count X.total_image_count
               X.shared l₁ X.acquisition_count X.image_count
          ++ acqTraceStoppedAt (X.acquisition_count + l₁.length)
               X.total_acquisition_count X.total_image_count a X.shared
               (X.image_count + AcquisitionList.get_image_count l₁) t
          ++ listTraceStopped X.shared l₂ (X.acquisition_count + l₁.length + 1)
      ∧ (run_acquisition_list sch (l₁ ++ a :: l₂) X).image_count
          = X.image_count + AcquisitionList.get_image_count l₁ + (t + 1)
      ∧ (run_acquisition_list sch (l₁ ++ a :: l₂) X).stopflag = true
      ∧ (run_acquisition_list sch (l₁ ++ a :: l₂) X).shared.state = "idle"
      ∧ (run_acquisition_list sch (l₁ ++ a :: l₂) X).shutter_left_open = false
      ∧ (run_acquisition_list sch (l₁ ++ a :: l₂) X).shutter_right_open = false
      ∧ (run_acquisition_list sch (l₁ ++ a :: l₂) X).shared.shutterstate = false
      ∧ (run_acquisition_list sch (l₁ ++ a :: l₂) X).acquisition_count
          = X.acquisition_count + (l₁ ++ a :: l₂).length := by
  obtain ⟨x, y, hYsh⟩ := runListNormalState_shared_exists l₁ X
  rw [run_acquisition_list_append, run_acquisition_list_normal sch l₁ X hfl hm₁]
  simp only [run_acquisition_list]
  rw [run_one_trigAt sch a (runListNormalState l₁ X) t
      (by rw [runListNormalState_stopflag]; exact hfl)
      (by intro m hmt; rw [runListNormalState_pe]; exact hm₂ m hmt)
      (by rw [runListNormalState_pe]; exact htrig) hlt]
  rw [run_acquisition_list_stopped sch l₂ _ rfl htail]
  refine ⟨?_, ?_, ?_, ?_, ?_, ?_, ?_, ?_⟩
  · rw [runListStoppedState_trace]
    simp [runListNormalState_trace, runListNormalState_count,
          runListNormalState_image, runListNormalState_totA,
          runListNormalState_totI, hYsh, List.append_assoc,
          listTraceStopped_congr (fun b => mkMetadata_upd3 b
            { X.shared with shutterconfig := x, shutterstate := y }
            a.shutter false "idle"),
          listTraceStopped_congr (fun b => mkMetadata_upd2 b X.shared x y),
          acqTraceStoppedAt_congr a (mkMetadata_upd2 a X.shared x y)]
  · rw [runListStoppedState_image]
    simp [runListNormalState_image]
  · rw [runListStoppedState_stopflag]
  · rw [runListStoppedState_state]
  · exact (runListStoppedState_shutters l₂ _ rfl rfl rfl).1
  · exact (runListStoppedState_shutters l₂ _ rfl rfl rfl).2.1
  · exact (runListStoppedState_shutters l₂ _ rfl rfl rfl).2.2
  · rw [runListStoppedState_count]
    simp [runListNormalState_count]
    omega

theorem start_scenario (l₁ l₂ : List Acquisition) (a : Acquisition) (t : Nat)
    (s : CoreState) (hpe : s.pe_count = 0) (hlt : t + 1 < a.get_image_count)
    (htail : ∀ b ∈ l₂, 1 ≤ b.get_image_count) :
    (start (schedAt (AcquisitionList.get_image_count l₁ + t)) (l₁ ++ a :: l₂) s).trace
        = s.trace ++ [Event.gui_update true]
          ++ listTraceNormal (l₁ ++ a :: l₂).length
               (AcquisitionList.get_image_count (l₁ ++ a :: l₂)) s.shared l₁ 0 0
          ++ acqTraceStoppedAt l₁.length (l₁ ++ a :: l₂).length
               (AcquisitionList.get_image_count (l₁ ++ a :: l₂)) a s.shared
               (AcquisitionList.get_image_count l₁) t
          ++ listTraceStopped s.shared l₂ (l₁.length + 1)
          ++ [Event.finished, Event.gui_update false]
      ∧ (start (schedAt (AcquisitionList.get_image_count l₁ + t))
            (l₁ ++ a :: l₂) s).image_count
          = AcquisitionList.get_image_count l₁ + (t + 1)
      ∧ (start (schedAt (AcquisitionList.get_image_count l₁ + t))
            (l₁ ++ a :: l₂) s).stopflag = true
      ∧ (start (schedAt (AcquisitionList.get_image_count l₁ + t))
            (l₁ ++ a :: l₂) s).shared.state = "idle"
      ∧ (start (schedAt (AcquisitionList.get_image_count l₁ + t))
            (l₁ ++ a :: l₂) s).shutter_left_open = false
      ∧ (start (schedAt (AcquisitionList.get_image_count l₁ + t))
            (l₁ ++ a :: l₂) s).shutter_right_open = false
      ∧ (start (schedAt (AcquisitionList.get_image_count l₁ + t))
            (l₁ ++ a :: l₂) s).shared.shutterstate = false
      ∧ (start (schedAt (AcquisitionList.get_image_count l₁ + t))
            (l₁ ++ a :: l₂) s).acquisition_count = (l₁ ++ a :: l₂).length := by
  have hcore := scenario_core (schedAt (AcquisitionList.get_image_count l₁ + t))
      l₁ l₂ a t
      (prepare_acquisition_list (l₁ ++ a :: l₂)
        (emitE (.gui_update true) { s with stopflag := false }))
      rfl
      (by
        intro m hm
        show schedAt (AcquisitionList.get_image_count l₁ + t)
          (s.pe_count + m) = false
        rw [hpe]
        exact schedAt_ne (by omega))
      (by
        intro m hmt
        show schedAt (AcquisitionList.get_image_count l₁ + t)
          (s.pe_count + AcquisitionList.get_image_count l₁ + m) = false
        rw [hpe]
        exact schedAt_ne (by omega))
      (by
        show schedAt (AcquisitionList.get_image_count l₁ + t)
          (s.pe_count + AcquisitionList.get_image_count l₁ + t) = true
        rw [hpe]
        simp [schedAt])
      hlt htail
  obtain ⟨h1, h2, h3, h4, h5, h6, h7, h8⟩ := hcore
  have hclose : close_acquisition_list (run_acquisition_list
      (schedAt (AcquisitionList.get_image_count l₁ + t)) (l₁ ++ a :: l₂)
      (prepare_acquisition_list (l₁ ++ a :: l₂)
        (emitE (.gui_update true) { s with stopflag := false })))
      = emitE .finished (run_acquisition_list
          (schedAt (AcquisitionList.get_image_count l₁ + t)) (l₁ ++ a :: l₂)
          (prepare_acquisition_list (l₁ ++ a :: l₂)
            (emitE (.gui_update true) { s with stopflag := false }))) := by
    simp only [close_acquisition_list]
    rw [if_neg (by simp [h3])]
  simp only [start]
  refine ⟨?_, ?_, ?_, ?_, ?_, ?_, ?_, ?_⟩
  · rw [emitE_trace, hclose, emitE_trace, h1]
    simp [prepare_acquisition_list, emitE, List.append_assoc]
  · rw [emitE_image, hclose, emitE_image, h2]
    simp [prepare_acquisition_list, emitE]
  · rw [emitE_stopflag, hclose, emitE_stopflag, h3]
  · rw [emitE_shared, hclose, emitE_shared, h4]
  · rw [emitE_left, hclose, emitE_left, h5]
  · rw [emitE_right, hclose, emitE_right, h6]
  · rw [emitE_shared, hclose, emitE_shared, h7]
  · rw [emitE_count, hclose, emitE_count, h8]
    simp [prepare_acquisition_list, emitE]

/-! ## Progress-record extraction -/

theorem progressRecords_append (u v : List Event) :
    progressRecords (u ++ v) = progressRecords u ++ progressRecords v := by
  simp [progressRecords]

theorem progressRecords_prepareTrace (c : Nat) (a : Acquisition) (σ : SharedState) :
    progressRecords (prepareTrace c a σ) = [] := by
  simp [progressRecords, prepareTrace, prepareSignals, progOf]

theorem progressRecords_planeEvts (c totA p totI i imgc : Nat) :
    progressRecords (planeEvts c totA p totI i imgc)
      = [⟨c, totA, i, p, totI, imgc⟩] := by
  simp [progressRecords, planeEvts, progOf]

theorem progressRecords_stopIterEvts (c totA p totI i imgc : Nat) :
    progressRecords (stopIterEvts c totA p totI i imgc)
      = [⟨c, totA, i, p, totI, imgc⟩] := by
  simp [progressRecords, stopIterEvts, progOf]

theorem range'_append_own (m : Nat) :
    ∀ (s n : Nat), List.range' s m ++ List.range' (s + m) n = List.range' s (m + n) := by
  induction m with
  | zero => intro s n; simp
  | succ m ih =>
    intro s n
    have e1 : s + (m + 1) = s + 1 + m := by omega
    have e2 : m + 1 + n = m + n + 1 := by omega
    rw [List.range'_succ, e1, List.cons_append, ih, e2, List.range'_succ]

theorem planesTrace_counters (c totA p totI : Nat) :
    ∀ (n i imgc : Nat),
      (progressRecords (planesTrace c totA p totI n i imgc)).map
          ProgressRecord.image_counter
        = List.range' (imgc + 1) n := by
  intro n
  induction n with
  | zero => intro i imgc; simp [planesTrace, progressRecords]
  | succ n ih =>
    intro i imgc
    rw [List.range'_succ]
    simp [planesTrace, progressRecords_append, progressRecords_planeEvts, ih]

theorem planesTrace_total (c totA p totI : Nat) :
    ∀ (n i imgc : Nat) (r : ProgressRecord),
      r ∈ progressRecords (planesTrace c totA p totI n i imgc) →
      r.total_image_count = totI := by
  intro n
  induction n with
  | zero => intro i imgc r hr; simp [planesTrace, progressRecords] at hr
  | succ n ih =>
    intro i imgc r hr
    rw [planesTrace, progressRecords_append] at hr
    rcases List.mem_append.mp hr with h | h
    · rw [progressRecords_planeEvts] at h
      simp at h
      rw [h]
    · exact ih (i + 1) (imgc + 1) r h

theorem progressRecords_closing (c : Nat) :
    progressRecords [Event.move_absolute c true, Event.close_tasks c,
      Event.end_series c] = [] := by
  simp [progressRecords, progOf]

theorem listTraceNormal_counters (totA totI : Nat) (σ : SharedState) :
    ∀ (l : List Acquisition) (c imgc : Nat),
      (progressRecords (listTraceNormal totA totI σ l c imgc)).map
          ProgressRecord.image_counter
        = List.range' (imgc + 1) (AcquisitionList.get_image_count l) := by
  intro l
  induction l with
  | nil => intro c imgc; simp [listTraceNormal, progressRecords, get_image_count_nil]
  | cons a rest ih =>
    intro c imgc
    have e : imgc + a.get_image_count + 1 = imgc + 1 + a.get_image_count := by
      omega
    rw [listTraceNormal, progressRecords_append, List.map_append, ih, e,
        get_image_count_cons, ← range'_append_own]
    rw [acqTraceNormal, progressRecords_append, progressRecords_append,
        progressRecords_prepareTrace, progressRecords_closing]
    simp only [List.nil_append, List.append_nil]
    rw [planesTrace_counters]

theorem listTraceNormal_total (totA totI : Nat) (σ : SharedState) :
    ∀ (l : List Acquisition) (c imgc : Nat) (r : ProgressRecord),
      r ∈ progressRecords (listTraceNormal totA totI σ l c imgc) →
      r.total_image_count = totI := by
  intro l
  induction l with
  | nil => intro c imgc r hr; simp [listTraceNormal, progressRecords] at hr
  | cons a rest ih =>
    intro c imgc r hr
    rw [listTraceNormal, progressRecords_append] at hr
    rcases List.mem_append.mp hr with h | h
    · rw [acqTraceNormal, progressRecords_append, progressRecords_append,
          progressRecords_prepareTrace, progressRecords_closing] at h
      simp only [List.nil_append, List.append_nil] at h
      exact planesTrace_total c totA a.get_image_count totI
        a.get_image_count 0 imgc r h
    · exact ih (c + 1) (imgc + a.get_image_count) r h

theorem range'_one_getLast (n : Nat) :
    (List.range' 1 (n + 1)).getLast? = some (n + 1) := by
  rw [List.range'_concat]
  simp [List.getLast?_concat, Nat.add_comm]

/-! ## Tag extraction -/

theorem tagOf_prepareTrace {c : Nat} {a : Acquisition} {σ : SharedState} :
    ∀ e ∈ prepareTrace c a σ, tagOf e = some c := by
  intro e he
  simp [prepareTrace, prepareSignals] at he
  rcases he with rfl | rfl | rfl | rfl | rfl | rfl | rfl | rfl | rfl | rfl <;> rfl

theorem tagOf_planeEvts {c totA p totI i imgc : Nat} :
    ∀ e ∈ planeEvts c totA p totI i imgc, tagOf e = some c := by
  intro e he
  simp [planeEvts] at he
  rcases he with rfl | rfl | rfl | rfl | rfl | rfl <;> rfl

theorem tagOf_planesTrace {c totA p totI : Nat} :
    ∀ (n i imgc : Nat) (e : Event),
      e ∈ planesTrace c totA p totI n i imgc → tagOf e = some c := by
  intro n
  induction n with
  | zero => intro i imgc e he; simp [planesTrace] at he
  | succ n ih =>
    intro i imgc e he
    rw [planesTrace] at he
    rcases List.mem_append.mp he with h | h
    · exact tagOf_planeEvts e h
    · exact ih (i + 1) (imgc + 1) e h

theorem tagOf_stopIterEvts {c totA p totI i imgc : Nat} :
    ∀ e ∈ stopIterEvts c totA p totI i imgc,
      tagOf e = some c ∨ tagOf e = none := by
  intro e he
  simp [stopIterEvts] at he
  rcases he with rfl | rfl | rfl | rfl | rfl | rfl | rfl | rfl <;> simp [tagOf]

theorem tagOf_acqTraceNormal {c totA totI imgc : Nat} {a : Acquisition}
    {σ : SharedState} :
    ∀ e ∈ acqTraceNormal c totA totI a σ imgc, tagOf e = some c := by
  intro e he
  rw [acqTraceNormal] at he
  rcases List.mem_append.mp he with h | h
  · rcases List.mem_append.mp h with h' | h'
    · exact tagOf_prepareTrace e h'
    · exact tagOf_planesTrace _ _ _ e h'
  · simp at h
    rcases h with rfl | rfl | rfl <;> rfl

theorem tagOf_acqTraceStoppedAt {c totA totI imgc t : Nat} {a : Acquisition}
    {σ : SharedState} :
    ∀ e ∈ acqTraceStoppedAt c totA totI a σ imgc t,
      tagOf e = some c ∨ tagOf e = none := by
  intro e he
  rw [acqTraceStoppedAt] at he
  rcases List.mem_append.mp he with h | h
  · rcases List.mem_append.mp h with h' | h'
    · rcases List.mem_append.mp h' with h'' | h''
      · exact Or.inl (tagOf_prepareTrace e h'')
      · exact Or.inl (tagOf_planesTrace _ _ _ e h'')
    · exact tagOf_stopIterEvts e h'
  · simp at h
    rcases h with rfl | rfl | rfl <;> simp [tagOf]

theorem tagOf_stoppedAcqEvents {c : Nat} {a : Acquisition} {σ : SharedState} :
    ∀ e ∈ stoppedAcqEvents c a σ, tagOf e = some c := by
  intro e he
  rw [stoppedAcqEvents] at he
  rcases List.mem_append.mp he with h | h
  · exact tagOf_prepareTrace e h
  · simp at h
    rcases h with rfl | rfl | rfl <;> rfl

theorem tagOf_listTraceNormal {totA totI : Nat} {σ : SharedState} :
    ∀ (l : List Acquisition) (c imgc : Nat) (e : Event),
      e ∈ listTraceNormal totA totI σ l c imgc →
      ∃ c', tagOf e = some c' ∧ c ≤ c' ∧ c' < c + l.length := by
  intro l
  induction l with
  | nil => intro c imgc e he; simp [listTraceNormal] at he
  | cons a rest ih =>
    intro c imgc e he
    rw [listTraceNormal] at he
    rcases List.mem_append.mp he with h | h
    · exact ⟨c, tagOf_acqTraceNormal e h, Nat.le_refl c, by simp⟩
    · obtain ⟨c', hc', h1, h2⟩ := ih (c + 1) (imgc + a.get_image_count) e h
      exact ⟨c', hc', by omega, by simp; omega⟩

theorem tagOf_listTraceStopped {σ : SharedState} :
    ∀ (l : List Acquisition) (c : Nat) (e : Event),
      e ∈ listTraceStopped σ l c →
      ∃ c', tagOf e = some c' ∧ c ≤ c' ∧ c' < c + l.length := by
  intro l
  induction l with
  | nil => intro c e he; simp [listTraceStopped] at he
  | cons a rest ih =>
    intro c e he
    rw [listTraceStopped] at he
    rcases List.mem_append.mp he with h | h
    · exact ⟨c, tagOf_stoppedAcqEvents e h, Nat.le_refl c, by simp⟩
    · obtain ⟨c', hc', h1, h2⟩ := ih (c + 1) e h
      exact ⟨c', hc', by omega, by simp; omega⟩

/-! ## Filtering a trace by acquisition tag -/

theorem eventsTagged_append (j : Nat) (u v : List Event) :
    eventsTagged j (u ++ v) = eventsTagged j u ++ eventsTagged j v := by
  simp [eventsTagged]

theorem eventsTagged_nil_of {j : Nat} :
    ∀ (t : List Event), (∀ e ∈ t, tagOf e ≠ some j) → eventsTagged j t = [] := by
  intro t h
  rw [eventsTagged, List.filter_eq_nil_iff]
  intro e he
  simp [h e he]

theorem eventsTagged_all_of {j : Nat} :
    ∀ (t : List Event), (∀ e ∈ t, tagOf e = some j) → eventsTagged j t = t := by
  intro t h
  rw [eventsTagged, List.filter_eq_self]
  intro e he
  simp [h e he]

/-! ## End-of-series signal counting -/

theorem endSeriesTags_append (u v : List Event) :
    endSeriesTags (u ++ v) = endSeriesTags u ++ endSeriesTags v := by
  simp [endSeriesTags]

theorem endSeriesTags_prepareTrace (c : Nat) (a : Acquisition) (σ : SharedState) :
    endSeriesTags (prepareTrace c a σ) = [] := by
  simp [endSeriesTags, prepareTrace, prepareSignals]

theorem endSeriesTags_planeEvts (c totA p totI i imgc : Nat) :
    endSeriesTags (planeEvts c totA p totI i imgc) = [] := by
  simp [endSeriesTags, planeEvts]

theorem endSeriesTags_planesTrace (c totA p totI : Nat) :
    ∀ (n i imgc : Nat), endSeriesTags (planesTrace c totA p totI n i imgc) = [] := by
  intro n
  induction n with
  | zero => intro i imgc; simp [planesTrace, endSeriesTags]
  | succ n ih =>
    intro i imgc
    rw [planesTrace, endSeriesTags_append, endSeriesTags_planeEvts, ih]
    rfl

theorem endSeriesTags_stopIterEvts (c totA p totI i imgc : Nat) :
    endSeriesTags (stopIterEvts c totA p totI i imgc) = [] := by
  simp [endSeriesTags, stopIterEvts]

theorem endSeriesTags_acqTraceNormal (c totA totI imgc : Nat) (a : Acquisition)
    (σ : SharedState) :
    endSeriesTags (acqTraceNormal c totA totI a σ imgc) = [c] := by
  rw [acqTraceNormal, endSeriesTags_append, endSeriesTags_append,
      endSeriesTags_prepareTrace, endSeriesTags_planesTrace]
  simp [endSeriesTags]

theorem endSeriesTags_acqTraceStoppedAt (c totA totI imgc t : Nat)
    (a : Acquisition) (σ : SharedState) :
    endSeriesTags (acqTraceStoppedAt c totA totI a σ imgc t) = [c, c] := by
  rw [acqTraceStoppedAt, endSeriesTags_append, endSeriesTags_append,
      endSeriesTags_append, endSeriesTags_prepareTrace,
      endSeriesTags_planesTrace, endSeriesTags_stopIterEvts]
  simp [endSeriesTags]

theorem endSeriesTags_stoppedAcqEvents (c : Nat) (a : Acquisition)
    (σ : SharedState) :
    endSeriesTags (stoppedAcqEvents c a σ) = [c, c] := by
  rw [stoppedAcqEvents, endSeriesTags_append, endSeriesTags_prepareTrace]
  simp [endSeriesTags]

theorem endSeriesTags_listTraceNormal (totA totI : Nat) (σ : SharedState) :
    ∀ (l : List Acquisition) (c imgc : Nat),
      endSeriesTags (listTraceNormal totA totI σ l c imgc)
        = List.range' c l.length := by
  intro l
  induction l with
  | nil => intro c imgc; simp [listTraceNormal, endSeriesTags]
  | cons a rest ih =>
    intro c imgc
    rw [listTraceNormal, endSeriesTags_append, endSeriesTags_acqTraceNormal, ih]
    simp only [List.length_cons]
    rw [List.range'_succ]
    rfl

theorem natCount_append (j : Nat) :
    ∀ (u v : List Nat), natCount j (u ++ v) = natCount j u + natCount j v := by
  intro u
  induction u with
  | nil => intro v; simp [natCount]
  | cons c rest ih =>
    intro v
    rw [List.cons_append, natCount, natCount, ih]
    omega

theorem natCount_range' (j : Nat) :
    ∀ (n s : Nat), natCount j (List.range' s n)
      = if s ≤ j ∧ j < s + n then 1 else 0 := by
  intro n
  induction n with
  | zero =>
    intro s
    rw [List.range'_zero]
    simp only [natCount]
    split_ifs <;> omega
  | succ n ih =>
    intro s
    rw [List.range'_succ, natCount, ih]
    split_ifs <;> omega

theorem natCount_listTraceStopped (j : Nat) (σ : SharedState) :
    ∀ (l : List Acquisition) (c : Nat),
      natCount j (endSeriesTags (listTraceStopped σ l c))
        = if c ≤ j ∧ j < c + l.length then 2 else 0 := by
  intro l
  induction l with
  | nil =>
    intro c
    simp only [listTraceStopped, endSeriesTags, List.filterMap_nil, natCount,
               List.length_nil]
    split_ifs <;> omega
  | cons a rest ih =>
    intro c
    rw [listTraceStopped, endSeriesTags_append, endSeriesTags_stoppedAcqEvents,
        natCount_append, ih, natCount, natCount, natCount]
    simp only [List.length_cons]
    split_ifs <;> omega

theorem listTraceStopped_append (σ : SharedState) :
    ∀ (u v : List Acquisition) (c : Nat),
      listTraceStopped σ (u ++ v) c
        = listTraceStopped σ u c ++ listTraceStopped σ v (c + u.length) := by
  intro u
  induction u with
  | nil => intro v c; simp [listTraceStopped]
  | cons a rest ih =>
    intro v c
    have e : c + 1 + rest.length = c + (rest.length + 1) := by omega
    rw [List.cons_append, listTraceStopped, listTraceStopped, ih,
        List.append_assoc]
    simp [e]

theorem listTraceNormal_append (totA totI : Nat) (σ : SharedState) :
    ∀ (u v : List Acquisition) (c imgc : Nat),
      listTraceNormal totA totI σ (u ++ v) c imgc
        = listTraceNormal totA totI σ u c imgc
          ++ listTraceNormal totA totI σ v (c + u.length)
               (imgc + AcquisitionList.get_image_count u) := by
  intro u
  induction u with
  | nil => intro v c imgc; simp [listTraceNormal, get_image_count_nil]
  | cons a rest ih =>
    intro v c imgc
    have e1 : c + 1 + rest.length = c + (rest.length + 1) := by omega
    have e2 : imgc + a.get_image_count + AcquisitionList.get_image_count rest
        = imgc + AcquisitionList.get_image_count (a :: rest) := by
      rw [get_image_count_cons]; omega
    rw [List.cons_append, listTraceNormal, listTraceNormal, ih,
        List.append_assoc]
    simp [e1, e2]

/-! ## Behavior of a run under an arbitrary stop schedule

Used for the metadata claim, which holds for every stop schedule: each
acquisition writes its metadata record exactly once, during its prepare
step, and the per-plane loop never emits a metadata event. -/

theorem tagOf_prepareSignals {c : Nat} :
    ∀ e ∈ prepareSignals c, tagOf e = some c := by
  intro e he
  simp [prepareSignals] at he
  rcases he with rfl | rfl | rfl | rfl | rfl | rfl | rfl | rfl | rfl <;> rfl

theorem planeBody_generic (sched : Nat → Bool) (steps i : Nat) (s : CoreState) :
    (planeBody sched steps i s).acquisition_count = s.acquisition_count
    ∧ (∃ st, (planeBody sched steps i s).shared = { s.shared with state := st })
    ∧ ∃ Δ, (planeBody sched steps i s).trace = s.trace ++ Δ
        ∧ ∀ e ∈ Δ, (tagOf e = none ∨ tagOf e = some s.acquisition_count)
            ∧ ∀ j r, e ≠ Event.metadata j r := by
  by_cases h : sched s.pe_count = true
  · rw [planeBody_trig sched steps i s h]
    refine ⟨rfl, ⟨"idle", rfl⟩,
      stopIterEvts s.acquisition_count s.total_acquisition_count steps
        s.total_image_count i (s.image_count + 1), rfl, ?_⟩
    intro e he
    simp [stopIterEvts] at he
    rcases he with rfl | rfl | rfl | rfl | rfl | rfl | rfl | rfl <;>
      exact ⟨by simp [tagOf], by simp⟩
  · have h' : sched s.pe_count = false := by simpa using h
    rw [planeBody_noTrig sched steps i s h']
    refine ⟨rfl, ⟨s.shared.state, rfl⟩,
      planeEvts s.acquisition_count s.total_acquisition_count steps
        s.total_image_count i (s.image_count + 1), rfl, ?_⟩
    intro e he
    simp [planeEvts] at he
    rcases he with rfl | rfl | rfl | rfl | rfl | rfl <;>
      exact ⟨by simp [tagOf], by simp⟩

theorem planeLoop_generic (sched : Nat → Bool) (steps : Nat) :
    ∀ (n i : Nat) (s : CoreState),
      (planeLoop sched steps n i s).acquisition_count = s.acquisition_count
      ∧ (∃ st, (planeLoop sched steps n i s).shared
          = { s.shared with state := st })
      ∧ ∃ Δ, (planeLoop sched steps n i s).trace = s.trace ++ Δ
          ∧ ∀ e ∈ Δ, (tagOf e = none ∨ tagOf e = some s.acquisition_count)
              ∧ ∀ j r, e ≠ Event.metadata j r := by
  intro n
  induction n with
  | zero =>
    intro i s
    exact ⟨rfl, ⟨s.shared.state, rfl⟩, [], by simp [planeLoop], by simp⟩
  | succ n ih =>
    intro i s
    rw [planeLoop]
    by_cases hstop : s.stopflag = true
    · rw [if_pos hstop]
      refine ⟨rfl, ⟨s.shared.state, rfl⟩,
        [Event.close_tasks s.acquisition_count,
         Event.end_series s.acquisition_count], ?_, ?_⟩
      · simp [emitE, close_image_series, waveformer_close_tasks,
              List.append_assoc]
      · intro e he
        simp at he
        rcases he with rfl | rfl <;> exact ⟨by simp [tagOf], by simp⟩
    · rw [if_neg hstop]
      obtain ⟨hc, ⟨st, hsh⟩, Δ₁, hΔ₁, hmem₁⟩ := planeBody_generic sched steps i s
      obtain ⟨hc₂, ⟨st₂, hsh₂⟩, Δ₂, hΔ₂, hmem₂⟩ := ih (i + 1) (planeBody sched steps i s)
      refine ⟨by rw [hc₂, hc], ⟨st₂, by rw [hsh₂, hsh]⟩, Δ₁ ++ Δ₂, ?_, ?_⟩
      · rw [hΔ₂, hΔ₁, List.append_assoc]
      · intro e he
        rcases List.mem_append.mp he with h | h
        · exact hmem₁ e h
        · obtain ⟨htag, hnm⟩ := hmem₂ e h
          rw [hc] at htag
          exact ⟨htag, hnm⟩

theorem close_acquisition_generic (a : Acquisition) (s : CoreState) :
    (close_acquisition a s).acquisition_count = s.acquisition_count + 1
    ∧ (close_acquisition a s).shared = s.shared
    ∧ ∃ Δ, (close_acquisition a s).trace = s.trace ++ Δ
        ∧ ∀ e ∈ Δ, (tagOf e = none ∨ tagOf e = some s.acquisition_count)
            ∧ ∀ j r, e ≠ Event.metadata j r := by
  by_cases h : s.stopflag = true
  · rw [close_acquisition_stopped a s h]
    refine ⟨rfl, rfl, [Event.end_series s.acquisition_count], rfl, ?_⟩
    intro e he
    simp at he
    subst he
    exact ⟨by simp [tagOf], by simp⟩
  · rw [close_acquisition_notStopped a s (by simpa using h)]
    refine ⟨rfl, rfl,
      [Event.move_absolute s.acquisition_count true,
       Event.close_tasks s.acquisition_count,
       Event.end_series s.acquisition_count], rfl, ?_⟩
    intro e he
    simp at he
    rcases he with rfl | rfl | rfl <;> exact ⟨by simp [tagOf], by simp⟩

theorem run_acquisition_generic (sched : Nat → Bool) (a : Acquisition)
    (s : CoreState) :
    (run_acquisition sched a s).acquisition_count = s.acquisition_count
    ∧ (∃ y st, (run_acquisition sched a s).shared
        = { s.shared with shutterstate := y, state := st })
    ∧ ∃ Δ, (run_acquisition sched a s).trace = s.trace ++ Δ
        ∧ ∀ e ∈ Δ, (tagOf e = none ∨ tagOf e = some s.acquisition_count)
            ∧ ∀ j r, e ≠ Event.metadata j r := by
  rw [run_acquisition, open_shutters_eq]
  obtain ⟨hc, ⟨st, hsh⟩, Δ, hΔ, hmem⟩ :=
    planeLoop_generic sched a.get_image_count a.get_image_count 0
      { s with shutter_left_open := leftOpenFor s.shared.shutterconfig,
               shutter_right_open := rightOpenFor s.shared.shutterconfig,
               shared := { s.shared with shutterstate := true } }
  refine ⟨by rw [close_shutters, hc], ⟨false, st, ?_⟩, Δ, ?_, ?_⟩
  · rw [close_shutters, hsh]
  · rw [close_shutters, hΔ]
  · intro e he
    exact hmem e he

theorem run_one_generic (sched : Nat → Bool) (a : Acquisition) (s : CoreState) :
    (run_one sched a s).acquisition_count = s.acquisition_count + 1
    ∧ (∃ x y st, (run_one sched a s).shared
        = { s.shared with shutterconfig := x, shutterstate := y, state := st })
    ∧ ∃ Δ, (run_one sched a s).trace
        = s.trace ++ prepareSignals s.acquisition_count
          ++ [Event.metadata s.acquisition_count (mkMetadata a s.shared)] ++ Δ
        ∧ ∀ e ∈ Δ, (tagOf e = none ∨ tagOf e = some s.acquisition_count)
            ∧ ∀ j r, e ≠ Event.metadata j r := by
  rw [run_one, prepare_acquisition_eq]
  obtain ⟨hc₂, ⟨y₂, st₂, hsh₂⟩, Δ₂, hΔ₂, hmem₂⟩ :=
    run_acquisition_generic sched a
      { s with shared := { s.shared with shutterconfig := a.shutter },
               trace := s.trace ++ prepareTrace s.acquisition_count a s.shared }
  obtain ⟨hc₃, hsh₃, Δ₃, hΔ₃, hmem₃⟩ :=
    close_acquisition_generic a
      (run_acquisition sched a
        { s with shared := { s.shared with shutterconfig := a.shutter },
                 trace := s.trace ++ prepareTrace s.acquisition_count a s.shared })
  refine ⟨by rw [hc₃, hc₂], ⟨a.shutter, y₂, st₂, by rw [hsh₃, hsh₂]⟩,
    Δ₂ ++ Δ₃, ?_, ?_⟩
  · rw [hΔ₃, hΔ₂]
    simp [prepareTrace, List.append_assoc]
  · intro e he
    rcases List.mem_append.mp he with h | h
    · exact hmem₂ e h
    · obtain ⟨htag, hnm⟩ := hmem₃ e h
      rw [hc₂] at htag
      exact ⟨htag, hnm⟩

theorem run_acquisition_list_generic (sched : Nat → Bool) :
    ∀ (l : List Acquisition) (s : CoreState),
      (run_acquisition_list sched l s).acquisition_count
          = s.acquisition_count + l.length
      ∧ (∃ x y st, (run_acquisition_list sched l s).shared
          = { s.shared with shutterconfig := x, shutterstate := y, state := st })
      ∧ ∃ Δ, (run_acquisition_list sched l s).trace = s.trace ++ Δ
          ∧ ∀ e ∈ Δ, tagOf e = none
              ∨ ∃ c', tagOf e = some c' ∧ s.acquisition_count ≤ c'
                  ∧ c' < s.acquisition_count + l.length := by
  intro l
  induction l with
  | nil =>
    intro s
    exact ⟨by simp [run_acquisition_list],
      ⟨s.shared.shutterconfig, s.shared.shutterstate, s.shared.state, rfl⟩,
      [], by simp [run_acquisition_list], by simp⟩
  | cons a rest ih =>
    intro s
    simp only [run_acquisition_list]
    obtain ⟨hc₁, ⟨x₁, y₁, st₁, hsh₁⟩, Δ₁, hΔ₁, hmem₁⟩ := run_one_generic sched a s
    obtain ⟨hc₂, ⟨x₂, y₂, st₂, hsh₂⟩, Δ₂, hΔ₂, hmem₂⟩ := ih (run_one sched a s)
    refine ⟨by rw [hc₂, hc₁]; simp; omega,
      ⟨x₂, y₂, st₂, by rw [hsh₂, hsh₁]⟩,
      prepareSignals s.acquisition_count
        ++ [Event.metadata s.acquisition_count (mkMetadata a s.shared)]
        ++ Δ₁ ++ Δ₂, ?_, ?_⟩
    · rw [hΔ₂, hΔ₁]
      simp [List.append_assoc]
    · intro e he
      simp only [List.append_assoc, List.mem_append] at he
      rcases he with h | h | h | h
      · refine Or.inr ⟨s.acquisition_count, tagOf_prepareSignals e h, Nat.le_refl _, by simp⟩
      · simp at h
        subst h
        refine Or.inr ⟨s.acquisition_count, rfl, Nat.le_refl _, by simp⟩
      · obtain ⟨htag, _⟩ := hmem₁ e h
        rcases htag with hnone | hsome
        · exact Or.inl hnone
        · exact Or.inr ⟨s.acquisition_count, hsome, Nat.le_refl _, by simp⟩
      · have := hmem₂ e h
        rw [hc₁] at this
        rcases this with hnone | ⟨c', hc', hle, hlt⟩
        · exact Or.inl hnone
        · exact Or.inr ⟨c', hc', by omega, by simp; omega⟩

theorem close_acquisition_list_generic (s : CoreState) :
    ∃ Δ, (close_acquisition_list s).trace = s.trace ++ Δ
      ∧ ∀ e ∈ Δ, tagOf e = none ∨ tagOf e = some s.acquisition_count := by
  by_cases h : s.stopflag = false
  · refine ⟨[Event.move_absolute s.acquisition_count false, Event.finished],
      ?_, ?_⟩
    · simp [close_acquisition_list, h, emitE, List.append_assoc]
    · intro e he
      simp at he
      rcases he with rfl | rfl <;> simp [tagOf]
  · refine ⟨[Event.finished], ?_, ?_⟩
    · simp [close_acquisition_list, h, emitE]
    · intro e he
      simp at he
      subst he
      simp [tagOf]

/-! ## The claims -/

/-- C3: the spec requires both waveform usage patterns to leave no task
buffer open on any exit path of an imaging mode, including the
stopped-early path.  The code violates this: when the stop request arrives
during the processing of an acquisition's final plane, the per-plane loop
exits normally without observing the flag, and `close_acquisition` then
skips `close_image_series` because `self.stopflag` is set, so the buffers
created by `prepare_acquisition` are never closed.  Concretely, for a
single-acquisition list with one plane and a stop request delivered at the
first yield point, the whole run performs one `create_tasks` call and zero
`close_tasks` calls. -/
theorem C3_task_buffer_leak :
    countCreates (start (schedAt 0) [acqA] s0).trace = 1
    ∧ countCloses (start (schedAt 0) [acqA] s0).trace = 0 := by
  decide

/-- C5: whenever `visual_mode` exits — for every stop schedule and fuel
under which its preview loop terminates, including a stop request delivered
at the very first yield point after entry — the ETL left and right
amplitude parameters in SharedState equal the values they held immediately
before entry: the mode saves both amplitudes on entry and unconditionally
requests their restoration after closing the series and the shutters. -/
theorem C5_visual_mode_restores_etl (sched : Nat → Bool) (fuel : Nat)
    (s s' : CoreState) (h : visual_mode sched fuel s = some s') :
    s'.shared.etl_l_amplitude = s.shared.etl_l_amplitude
    ∧ s'.shared.etl_r_amplitude = s.shared.etl_r_amplitude := by
  unfold visual_mode at h
  dsimp only at h
  split at h
  · simp at h
  · injection h with h'
    subst h'
    exact ⟨rfl, rfl⟩

/-- Witness for C5: a concrete run of `visual_mode` with ETL amplitudes 5
and 7 and a stop request at the first yield point terminates and restores
both amplitudes. -/
theorem C5_witness :
    ∃ s', visual_mode (fun _ => true) 2 s0 = some s'
      ∧ s'.shared.etl_l_amplitude = s0.shared.etl_l_amplitude
      ∧ s'.shared.etl_r_amplitude = s0.shared.etl_r_amplitude := by
  have hsome : (visual_mode (fun _ => true) 2 s0).isSome = true := by decide
  obtain ⟨s', hs⟩ := Option.isSome_iff_exists.mp hsome
  obtain ⟨h1, h2⟩ := C5_visual_mode_restores_etl (fun _ => true) 2 s0 s' hs
  exact ⟨s', hs, h1, h2⟩

/-- C6: `lightsheet_alignment_mode` is specified to repeat its
left-shutter/snap, right-shutter/snap cycle until the stop flag is
observed, with no exception escaping the loop.  The code instead raises
`NameError` at the end of the very first iteration: the loop's yield call
is written `QApplication.processEvents()`, but only `QtWidgets` is bound at
module scope (the working spelling used everywhere else is
`QtWidgets.QApplication.processEvents()`), so the bare name `QApplication`
is unbound.  The loop therefore never runs a second iteration and never
observes a stop request, for every schedule, fuel and starting state. -/
theorem C6_alignment_raises_name_error (sched : Nat → Bool) (n : Nat)
    (s : CoreState) :
    lightsheet_alignment_mode sched (n + 1) s
      = LoopResult.raised (PyErr.nameError "QApplication")
          (alignmentBody { s with stopflag := false }) := rfl

/-- C7: `execute_script` wraps the script's execution in a bare `except:`,
so no failure raised by the script propagates out of the engine (the
embedding is a total function of the script's state transformation and
reported error); afterwards it unconditionally emits `sig_finished` and
sets the engine state to `idle`, whether the script succeeded or raised. -/
theorem C7_execute_script_contained
    (script : CoreState → CoreState × Option PyErr) (s : CoreState) :
    (execute_script script s).shared.state = "idle"
    ∧ Event.finished ∈ (execute_script script s).trace := by
  refine ⟨rfl, ?_⟩
  simp [execute_script, emitE]

/-- C8: for every shutter configuration value other than Both, Left and
Right, `open_shutters` falls through to its default branch, opening both
shutters and recording `shutterstate = True` in SharedState. -/
theorem C8_open_shutters_default (s : CoreState)
    (h1 : s.shared.shutterconfig ≠ "Both")
    (h2 : s.shared.shutterconfig ≠ "Left")
    (h3 : s.shared.shutterconfig ≠ "Right") :
    (open_shutters s).shutter_left_open = true
    ∧ (open_shutters s).shutter_right_open = true
    ∧ (open_shutters s).shared.shutterstate = true := by
  simp [open_shutters, h1, h2, h3]

/-- Witness for C8: opening the shutters under the unrecognized
configuration value given in the witness state opens both shutters. -/
theorem C8_witness :
    (open_shutters { s0 with
        shared := { sigma0 with shutterconfig := "Weird" } }).shutter_left_open = true
    ∧ (open_shutters { s0 with
        shared := { sigma0 with shutterconfig := "Weird" } }).shutter_right_open = true
    ∧ (open_shutters { s0 with
        shared := { sigma0 with shutterconfig := "Weird" } }).shared.shutterstate = true :=
  C8_open_shutters_default
    { s0 with shared := { sigma0 with shutterconfig := "Weird" } }
    (by decide) (by decide) (by decide)

/-! ## Facts about runs entered with the stop flag already set

Unlike the exact-trace lemmas above, these hold for arbitrary plane counts
(including zero-plane members) and arbitrary schedules. -/

theorem planeLoop_stopped_facts (sched : Nat → Bool) (steps n i : Nat)
    (s : CoreState) (h : s.stopflag = true) :
    (planeLoop sched steps n i s).image_count = s.image_count
    ∧ (planeLoop sched steps n i s).stopflag = true
    ∧ (planeLoop sched steps n i s).shared = s.shared
    ∧ (planeLoop sched steps n i s).shutter_left_open = s.shutter_left_open
    ∧ (planeLoop sched steps n i s).shutter_right_open = s.shutter_right_open := by
  cases n with
  | zero => exact ⟨rfl, h, rfl, rfl, rfl⟩
  | succ n =>
    rw [planeLoop, if_pos h]
    exact ⟨rfl, h, rfl, rfl, rfl⟩

theorem run_one_stopped_facts (sched : Nat → Bool) (a : Acquisition)
    (s : CoreState) (h : s.stopflag = true) :
    (run_one sched a s).image_count = s.image_count
    ∧ (run_one sched a s).stopflag = true
    ∧ (run_one sched a s).shared.state = s.shared.state
    ∧ (run_one sched a s).shutter_left_open = false
    ∧ (run_one sched a s).shutter_right_open = false
    ∧ (run_one sched a s).shared.shutterstate = false := by
  have h0 : (open_shutters (prepare_acquisition a s)).stopflag = true := by
    rw [open_shutters_eq, prepare_acquisition_eq]
    exact h
  obtain ⟨h1, h2, h3, h4, h5⟩ := planeLoop_stopped_facts sched
    a.get_image_count a.get_image_count 0
    (open_shutters (prepare_acquisition a s)) h0
  have hflag2 : (close_shutters (planeLoop sched a.get_image_count
      a.get_image_count 0 (open_shutters (prepare_acquisition a s)))).stopflag
      = true := h2
  have h1' : (planeLoop sched a.get_image_count a.get_image_count 0
      (open_shutters (prepare_acquisition a s))).image_count = s.image_count := by
    rw [h1, open_shutters_eq, prepare_acquisition_eq]
  have h3' : (planeLoop sched a.get_image_count a.get_image_count 0
      (open_shutters (prepare_acquisition a s))).shared.state
      = s.shared.state := by
    rw [h3, open_shutters_eq, prepare_acquisition_eq]
  rw [run_one, run_acquisition, close_acquisition_stopped _ _ hflag2]
  refine ⟨?_, ?_, ?_, ?_, ?_, ?_⟩
  · simp only [close_shutters]
    exact h1'
  · simp only [close_shutters]
    exact h2
  · simp only [close_shutters]
    exact h3'
  · simp [close_shutters]
  · simp [close_shutters]
  · simp [close_shutters]

theorem runList_afterStop_facts (sched : Nat → Bool) :
    ∀ (l : List Acquisition) (s : CoreState), s.stopflag = true →
      (run_acquisition_list sched l s).image_count = s.image_count
      ∧ (run_acquisition_list sched l s).stopflag = true
      ∧ (run_acquisition_list sched l s).shared.state = s.shared.state
      ∧ ((s.shutter_left_open = false ∧ s.shutter_right_open = false
            ∧ s.shared.shutterstate = false) →
          (run_acquisition_list sched l s).shutter_left_open = false
          ∧ (run_acquisition_list sched l s).shutter_right_open = false
          ∧ (run_acquisition_list sched l s).shared.shutterstate = false) := by
  intro l
  induction l with
  | nil => intro s h; exact ⟨rfl, h, rfl, fun hc => hc⟩
  | cons a rest ih =>
    intro s h
    simp only [run_acquisition_list]
    obtain ⟨g1, g2, g3, g4, g5, g6⟩ := run_one_stopped_facts sched a s h
    obtain ⟨i1, i2, i3, i4⟩ := ih (run_one sched a s) g2
    exact ⟨i1.trans g1, i2, i3.trans g3, fun _ => i4 ⟨g4, g5, g6⟩⟩

/-- C1: for every acquisition-list run — the list decomposed as
`l₁ ++ a :: l₂`, so the acquisition being executed when the stop arrives is
`a` at index i = l₁.length — if the stop request arrives at the yield point
of plane k-1 of `a` (so the flag is set while the engine is mid-way through
acquisition i and observed at the plane-k poll, 1 ≤ k < pᵢ), then at the
end of the run the image counter is frozen at Σ_{j<i} pⱼ + k, both physical
shutters and the SharedState shutter flag are closed, the image series that
was open at the stop has been closed (acquisition i's `close_tasks` call
and end-of-series signal are in the trace), and the engine state equals
"idle" — `stop()` set it at the request itself, one poll cycle before the
loop observed the flag, and nothing resets it for the rest of the run. -/
theorem C1_stop_freezes_counter (l₁ l₂ : List Acquisition) (a : Acquisition)
    (k : Nat) (s : CoreState) (hpe : s.pe_count = 0) (hk1 : 1 ≤ k)
    (hk2 : k < a.get_image_count) :
    (start (schedAt (AcquisitionList.get_image_count l₁ + k - 1))
        (l₁ ++ a :: l₂) s).image_count
      = AcquisitionList.get_image_count l₁ + k
    ∧ (start (schedAt (AcquisitionList.get_image_count l₁ + k - 1))
        (l₁ ++ a :: l₂) s).shutter_left_open = false
    ∧ (start (schedAt (AcquisitionList.get_image_count l₁ + k - 1))
        (l₁ ++ a :: l₂) s).shutter_right_open = false
    ∧ (start (schedAt (AcquisitionList.get_image_count l₁ + k - 1))
        (l₁ ++ a :: l₂) s).shared.shutterstate = false
    ∧ (start (schedAt (AcquisitionList.get_image_count l₁ + k - 1))
        (l₁ ++ a :: l₂) s).shared.state = "idle"
    ∧ (start (schedAt (AcquisitionList.get_image_count l₁ + k - 1))
        (l₁ ++ a :: l₂) s).stopflag = true
    ∧ Event.close_tasks l₁.length ∈ (start (schedAt
        (AcquisitionList.get_image_count l₁ + k - 1)) (l₁ ++ a :: l₂) s).trace
    ∧ Event.end_series l₁.length ∈ (start (schedAt
        (AcquisitionList.get_image_count l₁ + k - 1)) (l₁ ++ a :: l₂) s).trace := by
  obtain ⟨t, rfl⟩ : ∃ t, k = t + 1 := ⟨k - 1, by omega⟩
  have e : AcquisitionList.get_image_count l₁ + (t + 1) - 1
      = AcquisitionList.get_image_count l₁ + t := by omega
  rw [e]
  have hnorm := run_acquisition_list_normal
      (schedAt (AcquisitionList.get_image_count l₁ + t)) l₁
      (prepare_acquisition_list (l₁ ++ a :: l₂)
        (emitE (.gui_update true) { s with stopflag := false }))
      rfl
      (by
        intro m hm
        show schedAt (AcquisitionList.get_image_count l₁ + t)
          (s.pe_count + m) = false
        rw [hpe]
        exact schedAt_ne (by omega))
  have htrig := run_one_trigAt
      (schedAt (AcquisitionList.get_image_count l₁ + t)) a
      (runListNormalState l₁ (prepare_acquisition_list (l₁ ++ a :: l₂)
        (emitE (.gui_update true) { s with stopflag := false }))) t
      (by rw [runListNormalState_stopflag]; rfl)
      (by
        intro m hmt
        rw [runListNormalState_pe]
        show schedAt (AcquisitionList.get_image_count l₁ + t)
          (s.pe_count + AcquisitionList.get_image_count l₁ + m) = false
        rw [hpe]
        exact schedAt_ne (by omega))
      (by
        rw [runListNormalState_pe]
        show schedAt (AcquisitionList.get_image_count l₁ + t)
          (s.pe_count + AcquisitionList.get_image_count l₁ + t) = true
        rw [hpe]
        simp [schedAt])
      hk2
  have hYc : (runListNormalState l₁ (prepare_acquisition_list (l₁ ++ a :: l₂)
      (emitE (.gui_update true) { s with stopflag := false }))).acquisition_count
      = l₁.length := by
    rw [runListNormalState_count]
    simp [prepare_acquisition_list, emitE]
  have hYim : (runListNormalState l₁ (prepare_acquisition_list (l₁ ++ a :: l₂)
      (emitE (.gui_update true) { s with stopflag := false }))).image_count
      = AcquisitionList.get_image_count l₁ := by
    rw [runListNormalState_image]
    simp [prepare_acquisition_list, emitE]
  have hZflag : (run_one (schedAt (AcquisitionList.get_image_count l₁ + t)) a
      (runListNormalState l₁ (prepare_acquisition_list (l₁ ++ a :: l₂)
        (emitE (.gui_update true) { s with stopflag := false })))).stopflag
      = true := by rw [htrig]
  have hZim : (run_one (schedAt (AcquisitionList.get_image_count l₁ + t)) a
      (runListNormalState l₁ (prepare_acquisition_list (l₁ ++ a :: l₂)
        (emitE (.gui_update true) { s with stopflag := false })))).image_count
      = AcquisitionList.get_image_count l₁ + (t + 1) := by
    rw [htrig]
    simp [hYim]
  have hZst : (run_one (schedAt (AcquisitionList.get_image_count l₁ + t)) a
      (runListNormalState l₁ (prepare_acquisition_list (l₁ ++ a :: l₂)
        (emitE (.gui_update true) { s with stopflag := false })))).shared.state
      = "idle" := by rw [htrig]
  have hZl : (run_one (schedAt (AcquisitionList.get_image_count l₁ + t)) a
      (runListNormalState l₁ (prepare_acquisition_list (l₁ ++ a :: l₂)
        (emitE (.gui_update true) { s with stopflag := false })))).shutter_left_open
      = false := by rw [htrig]
  have hZr : (run_one (schedAt (AcquisitionList.get_image_count l₁ + t)) a
      (runListNormalState l₁ (prepare_acquisition_list (l₁ ++ a :: l₂)
        (emitE (.gui_update true) { s with stopflag := false })))).shutter_right_open
      = false := by rw [htrig]
  have hZss : (run_one (schedAt (AcquisitionList.get_image_count l₁ + t)) a
      (runListNormalState l₁ (prepare_acquisition_list (l₁ ++ a :: l₂)
        (emitE (.gui_update true) { s with stopflag := false })))).shared.shutterstate
      = false := by rw [htrig]
  have hZmemC : Event.close_tasks l₁.length ∈ (run_one
      (schedAt (AcquisitionList.get_image_count l₁ + t)) a
      (runListNormalState l₁ (prepare_acquisition_list (l₁ ++ a :: l₂)
        (emitE (.gui_update true) { s with stopflag := false })))).trace := by
    rw [htrig]
    simp only [hYc]
    simp [acqTraceStoppedAt]
  have hZmemE : Event.end_series l₁.length ∈ (run_one
      (schedAt (AcquisitionList.get_image_count l₁ + t)) a
      (runListNormalState l₁ (prepare_acquisition_list (l₁ ++ a :: l₂)
        (emitE (.gui_update true) { s with stopflag := false })))).trace := by
    rw [htrig]
    simp only [hYc]
    simp [acqTraceStoppedAt]
  obtain ⟨w1, w2, w3, w4⟩ := runList_afterStop_facts
      (schedAt (AcquisitionList.get_image_count l₁ + t)) l₂
      (run_one (schedAt (AcquisitionList.get_image_count l₁ + t)) a
        (runListNormalState l₁ (prepare_acquisition_list (l₁ ++ a :: l₂)
          (emitE (.gui_update true) { s with stopflag := false })))) hZflag
  obtain ⟨_, _, Δ₃, hΔ₃, _⟩ := run_acquisition_list_generic
      (schedAt (AcquisitionList.get_image_count l₁ + t)) l₂
      (run_one (schedAt (AcquisitionList.get_image_count l₁ + t)) a
        (runListNormalState l₁ (prepare_acquisition_list (l₁ ++ a :: l₂)
          (emitE (.gui_update true) { s with stopflag := false }))))
  obtain ⟨w5, w6, w7⟩ := w4 ⟨hZl, hZr, hZss⟩
  have hsplit : run_acquisition_list
      (schedAt (AcquisitionList.get_image_count l₁ + t)) (l₁ ++ a :: l₂)
      (prepare_acquisition_list (l₁ ++ a :: l₂)
        (emitE (.gui_update true) { s with stopflag := false }))
      = run_acquisition_list (schedAt (AcquisitionList.get_image_count l₁ + t))
          l₂ (run_one (schedAt (AcquisitionList.get_image_count l₁ + t)) a
            (runListNormalState l₁ (prepare_acquisition_list (l₁ ++ a :: l₂)
              (emitE (.gui_update true) { s with stopflag := false })))) := by
    rw [run_acquisition_list_append, hnorm]
    rfl
  have hclose : close_acquisition_list (run_acquisition_list
      (schedAt (AcquisitionList.get_image_count l₁ + t)) l₂
      (run_one (schedAt (AcquisitionList.get_image_count l₁ + t)) a
        (runListNormalState l₁ (prepare_acquisition_list (l₁ ++ a :: l₂)
          (emitE (.gui_update true) { s with stopflag := false })))))
      = emitE .finished (run_acquisition_list
          (schedAt (AcquisitionList.get_image_count l₁ + t)) l₂
          (run_one (schedAt (AcquisitionList.get_image_count l₁ + t)) a
            (runListNormalState l₁ (prepare_acquisition_list (l₁ ++ a :: l₂)
              (emitE (.gui_update true) { s with stopflag := false }))))) := by
    simp only [close_acquisition_list]
    rw [if_neg (by simp [w2])]
  simp only [start]
  rw [hsplit]
  refine ⟨?_, ?_, ?_, ?_, ?_, ?_, ?_, ?_⟩
  · rw [emitE_image, hclose, emitE_image, w1, hZim]
  · rw [emitE_left, hclose, emitE_left]
    exact w5
  · rw [emitE_right, hclose, emitE_right]
    exact w6
  · rw [emitE_shared, hclose, emitE_shared]
    exact w7
  · rw [emitE_shared, hclose, emitE_shared, w3, hZst]
  · rw [emitE_stopflag, hclose, emitE_stopflag, w2]
  · rw [emitE_trace, hclose, emitE_trace, hΔ₃]
    exact List.mem_append_left _ (List.mem_append_left _
      (List.mem_append_left _ hZmemC))
  · rw [emitE_trace, hclose, emitE_trace, hΔ₃]
    exact List.mem_append_left _ (List.mem_append_left _
      (List.mem_append_left _ hZmemE))

/-- Witness for C1: a two-acquisition list where the stop request arrives
during plane 0 of the first acquisition (three planes), so the flag is
observed at plane k = 1: the image counter freezes at 1, shutters end
closed, the open series is closed and the engine state is idle. -/
theorem C1_witness :
    (start (schedAt (AcquisitionList.get_image_count [] + 1 - 1))
        ([] ++ acqB :: [acqA]) s0).image_count
      = AcquisitionList.get_image_count [] + 1
    ∧ (start (schedAt (AcquisitionList.get_image_count [] + 1 - 1))
        ([] ++ acqB :: [acqA]) s0).shutter_left_open = false
    ∧ (start (schedAt (AcquisitionList.get_image_count [] + 1 - 1))
        ([] ++ acqB :: [acqA]) s0).shutter_right_open = false
    ∧ (start (schedAt (AcquisitionList.get_image_count [] + 1 - 1))
        ([] ++ acqB :: [acqA]) s0).shared.shutterstate = false
    ∧ (start (schedAt (AcquisitionList.get_image_count [] + 1 - 1))
        ([] ++ acqB :: [acqA]) s0).shared.state = "idle"
    ∧ (start (schedAt (AcquisitionList.get_image_count [] + 1 - 1))
        ([] ++ acqB :: [acqA]) s0).stopflag = true
    ∧ Event.close_tasks 0 ∈ (start (schedAt
        (AcquisitionList.get_image_count [] + 1 - 1)) ([] ++ acqB :: [acqA]) s0).trace
    ∧ Event.end_series 0 ∈ (start (schedAt
        (AcquisitionList.get_image_count [] + 1 - 1)) ([] ++ acqB :: [acqA]) s0).trace :=
  C1_stop_freezes_counter [] [acqA] acqB 1 s0 rfl (by decide) (by decide)

/-- C2: for every acquisition list run to completion with no stop request,
every emitted progress record carries `total_image_count` equal to the
list's total Σpᵢ, the image counters of the progress records are exactly
1, 2, ..., Σpᵢ in order (exactly one record per captured plane, no double
counting, no gaps), and the final progress record's image counter equals
Σpᵢ. -/
theorem C2_progress_records (l : List Acquisition) (s : CoreState)
    (ht : s.trace = []) :
    (∀ r ∈ progressRecords (start schedNever l s).trace,
        r.total_image_count = AcquisitionList.get_image_count l)
    ∧ (progressRecords (start schedNever l s).trace).map
          ProgressRecord.image_counter
        = List.range' 1 (AcquisitionList.get_image_count l)
    ∧ (progressRecords (start schedNever l s).trace).length
        = AcquisitionList.get_image_count l
    ∧ (1 ≤ AcquisitionList.get_image_count l →
        ((progressRecords (start schedNever l s).trace).map
            ProgressRecord.image_counter).getLast?
          = some (AcquisitionList.get_image_count l)) := by
  obtain ⟨htr, _, _, _⟩ := start_never_facts l s
  rw [ht] at htr
  have hpr : progressRecords (start schedNever l s).trace
      = progressRecords (listTraceNormal l.length
          (AcquisitionList.get_image_count l) s.shared l 0 0) := by
    rw [htr, progressRecords_append, progressRecords_append,
        progressRecords_append]
    simp [progressRecords, progOf]
  have hcounters : (progressRecords (start schedNever l s).trace).map
      ProgressRecord.image_counter
      = List.range' 1 (AcquisitionList.get_image_count l) := by
    rw [hpr]
    have := listTraceNormal_counters l.length
      (AcquisitionList.get_image_count l) s.shared l 0 0
    simpa using this
  refine ⟨?_, hcounters, ?_, ?_⟩
  · intro r hr
    rw [hpr] at hr
    exact listTraceNormal_total l.length (AcquisitionList.get_image_count l)
      s.shared l 0 0 r hr
  · have hh := congrArg List.length hcounters
    simpa using hh
  · intro hT
    obtain ⟨n, hn⟩ : ∃ n, AcquisitionList.get_image_count l = n + 1 :=
      ⟨AcquisitionList.get_image_count l - 1, by omega⟩
    rw [hcounters, hn, range'_one_getLast]

/-- Witness for C2: a two-acquisition list with one and three planes: the
emitted image counters are exactly 1, 2, 3, 4. -/
theorem C2_witness :
    (progressRecords (start schedNever [acqA, acqB] s0).trace).map
        ProgressRecord.image_counter
      = List.range' 1 (AcquisitionList.get_image_count [acqA, acqB]) :=
  (C2_progress_records [acqA, acqB] s0 rfl).2.1

/-- C4: for every acquisition of a list run (the list decomposed as
`l₁ ++ a :: l₂`, the acquisition `a` at index i = l₁.length) and for every
stop schedule, the metadata sidecar record is written exactly once — a
unique metadata event for acquisition i appears in the trace — the write
happens before the first plane of that acquisition is captured (no
`add_images` event of acquisition i precedes it), and the record equals
`mkMetadata` of the acquisition and the SharedState snapshot at the start
of the run: the engine never mutates any key the record reads during a list
run, and the written record is a fixed value, so no later mutation is
visible in it. -/
theorem C4_metadata_written_once (sched : Nat → Bool)
    (l₁ l₂ : List Acquisition) (a : Acquisition) (s : CoreState)
    (ht : s.trace = []) :
    ∃ T₁ T₂,
      (start sched (l₁ ++ a :: l₂) s).trace
          = T₁ ++ Event.metadata l₁.length (mkMetadata a s.shared) :: T₂
      ∧ (∀ p, Event.add_images l₁.length p ∉ T₁)
      ∧ (∀ r, Event.metadata l₁.length r ∉ T₁)
      ∧ (∀ r, Event.metadata l₁.length r ∉ T₂) := by
  obtain ⟨gc₁, ⟨x₁, y₁, st₁, gsh₁⟩, Δ₁, hΔ₁, hm₁⟩ :=
    run_acquisition_list_generic sched l₁
      (prepare_acquisition_list (l₁ ++ a :: l₂)
        (emitE (.gui_update true) { s with stopflag := false }))
  obtain ⟨gc₂, _, Δ₂, hΔ₂, hm₂⟩ :=
    run_one_generic sched a
      (run_acquisition_list sched l₁
        (prepare_acquisition_list (l₁ ++ a :: l₂)
          (emitE (.gui_update true) { s with stopflag := false })))
  obtain ⟨gc₃, _, Δ₃, hΔ₃, hm₃⟩ :=
    run_acquisition_list_generic sched l₂
      (run_one sched a (run_acquisition_list sched l₁
        (prepare_acquisition_list (l₁ ++ a :: l₂)
          (emitE (.gui_update true) { s with stopflag := false }))))
  obtain ⟨Δ₄, hΔ₄, hm₄⟩ :=
    close_acquisition_list_generic
      (run_acquisition_list sched l₂ (run_one sched a
        (run_acquisition_list sched l₁
          (prepare_acquisition_list (l₁ ++ a :: l₂)
            (emitE (.gui_update true) { s with stopflag := false })))))
  have hXc : (prepare_acquisition_list (l₁ ++ a :: l₂)
      (emitE (.gui_update true)
        { s with stopflag := false })).acquisition_count = 0 := rfl
  have hYc : (run_acquisition_list sched l₁ (prepare_acquisition_list
      (l₁ ++ a :: l₂) (emitE (.gui_update true)
        { s with stopflag := false }))).acquisition_count = l₁.length := by
    rw [gc₁, hXc]
    omega
  have hrec : mkMetadata a (run_acquisition_list sched l₁
      (prepare_acquisition_list (l₁ ++ a :: l₂)
        (emitE (.gui_update true) { s with stopflag := false }))).shared
      = mkMetadata a s.shared := by
    rw [gsh₁]
    rfl
  have hVc : (run_one sched a (run_acquisition_list sched l₁
      (prepare_acquisition_list (l₁ ++ a :: l₂)
        (emitE (.gui_update true) { s with stopflag := false })))).acquisition_count
      = l₁.length + 1 := by
    rw [gc₂, hYc]
  have hWc : (run_acquisition_list sched l₂ (run_one sched a
      (run_acquisition_list sched l₁ (prepare_acquisition_list (l₁ ++ a :: l₂)
        (emitE (.gui_update true) { s with stopflag := false }))))).acquisition_count
      = l₁.length + 1 + l₂.length := by
    rw [gc₃, hVc]
  have hsplit : run_acquisition_list sched (l₁ ++ a :: l₂)
      (prepare_acquisition_list (l₁ ++ a :: l₂)
        (emitE (.gui_update true) { s with stopflag := false }))
      = run_acquisition_list sched l₂ (run_one sched a
          (run_acquisition_list sched l₁ (prepare_acquisition_list
            (l₁ ++ a :: l₂) (emitE (.gui_update true)
              { s with stopflag := false })))) := by
    rw [run_acquisition_list_append]
    simp only [run_acquisition_list]
  refine ⟨[Event.gui_update true] ++ Δ₁ ++ prepareSignals l₁.length,
    Δ₂ ++ Δ₃ ++ Δ₄ ++ [Event.gui_update false], ?_, ?_, ?_, ?_⟩
  · simp only [start]
    rw [emitE_trace, hsplit, hΔ₄, hΔ₃, hΔ₂, hYc, hrec, hΔ₁]
    simp [prepare_acquisition_list, emitE, ht, List.append_assoc]
  · intro p hp
    rcases List.mem_append.mp hp with hp | hp
    · rcases List.mem_append.mp hp with hp | hp
      · simp at hp
      · rcases hm₁ _ hp with hnone | ⟨c', hc', hle, hlt⟩
        · simp [tagOf] at hnone
        · rw [hXc] at hle hlt
          simp [tagOf] at hc'
          omega
    · simp [prepareSignals] at hp
  · intro r hr
    rcases List.mem_append.mp hr with hr | hr
    · rcases List.mem_append.mp hr with hr | hr
      · simp at hr
      · rcases hm₁ _ hr with hnone | ⟨c', hc', hle, hlt⟩
        · simp [tagOf] at hnone
        · rw [hXc] at hle hlt
          simp [tagOf] at hc'
          omega
    · simp [prepareSignals] at hr
  · intro r hr
    rcases List.mem_append.mp hr with hr | hr
    · rcases List.mem_append.mp hr with hr | hr
      · rcases List.mem_append.mp hr with hr | hr
        · exact absurd rfl ((hm₂ _ hr).2 l₁.length r)
        · rcases hm₃ _ hr with hnone | ⟨c', hc', hle, hlt⟩
          · simp [tagOf] at hnone
          · rw [hVc] at hle
            simp [tagOf] at hc'
            omega
      · rcases hm₄ _ hr with hnone | hsome
        · simp [tagOf] at hnone
        · rw [hWc] at hsome
          simp [tagOf] at hsome
          omega
    · simp at hr

/-- Witness for C4: a one-member list under the never-stop schedule: its
metadata record is written exactly once, before any captured plane, with
the SharedState values at the start of the run. -/
theorem C4_witness :
    ∃ T₁ T₂,
      (start schedNever [acqA] s0).trace
          = T₁ ++ Event.metadata 0 (mkMetadata acqA s0.shared) :: T₂
      ∧ (∀ p, Event.add_images 0 p ∉ T₁)
      ∧ (∀ r, Event.metadata 0 r ∉ T₁)
      ∧ (∀ r, Event.metadata 0 r ∉ T₂) :=
  C4_metadata_written_once schedNever [] [] acqA s0 rfl

/-- C9: after the stop flag is set during acquisition i = l₁.length of a
multi-member list (stop request at the yield point of plane k-1, observed
at plane k, 1 ≤ k < pᵢ), every remaining acquisition j greater than i (the
list decomposed as l₂ = l₃ ++ b :: l₄, j = i + 1 + l₃.length) still emits
exactly the full prepare sequence — blocking move to its start point,
blocking filter/zoom/laser/intensity applications, camera series
preparation, creation of new waveform task buffers, and the metadata write
— followed immediately by the close of the just-created series and two
end-of-series signals: the stop flag is first observed at plane 0 of
acquisition j's per-plane loop, and no stop check occurs at the list-entry
boundary. -/
theorem C9_post_stop_prepare (l₁ l₂ l₃ l₄ : List Acquisition)
    (a b : Acquisition) (k : Nat) (s : CoreState) (hpe : s.pe_count = 0)
    (ht : s.trace = []) (hk1 : 1 ≤ k) (hk2 : k < a.get_image_count)
    (htail : ∀ c ∈ l₂, 1 ≤ c.get_image_count)
    (hdec : l₂ = l₃ ++ b :: l₄) :
    eventsTagged (l₁.length + 1 + l₃.length)
        (start (schedAt (AcquisitionList.get_image_count l₁ + k - 1))
          (l₁ ++ a :: l₂) s).trace
      = stoppedAcqEvents (l₁.length + 1 + l₃.length) b s.shared := by
  obtain ⟨t, rfl⟩ : ∃ t, k = t + 1 := ⟨k - 1, by omega⟩
  have e : AcquisitionList.get_image_count l₁ + (t + 1) - 1
      = AcquisitionList.get_image_count l₁ + t := by omega
  rw [e]
  subst hdec
  obtain ⟨htr, _, _, _, _, _, _, _⟩ :=
    start_scenario l₁ (l₃ ++ b :: l₄) a t s hpe hk2 htail
  rw [htr, ht, listTraceStopped_append, listTraceStopped]
  have hj1 : eventsTagged (l₁.length + 1 + l₃.length)
      [Event.gui_update true] = [] := by
    apply eventsTagged_nil_of
    intro e' he'
    simp at he'
    subst he'
    simp [tagOf]
  have hj2 : ∀ (totA totI imgc : Nat),
      eventsTagged (l₁.length + 1 + l₃.length)
        (listTraceNormal totA totI s.shared l₁ 0 imgc) = [] := by
    intro totA totI imgc
    apply eventsTagged_nil_of
    intro e' he'
    obtain ⟨c', hc', hle, hlt⟩ := tagOf_listTraceNormal l₁ 0 imgc e' he'
    rw [hc']
    simp
    omega
  have hj3 : ∀ (totA totI imgc t' : Nat),
      eventsTagged (l₁.length + 1 + l₃.length)
        (acqTraceStoppedAt l₁.length totA totI a s.shared imgc t') = [] := by
    intro totA totI imgc t'
    apply eventsTagged_nil_of
    intro e' he'
    rcases tagOf_acqTraceStoppedAt e' he' with h' | h'
    · rw [h']
      simp
      omega
    · rw [h']
      simp
  have hj4 : eventsTagged (l₁.length + 1 + l₃.length)
      (listTraceStopped s.shared l₃ (l₁.length + 1)) = [] := by
    apply eventsTagged_nil_of
    intro e' he'
    obtain ⟨c', hc', hle, hlt⟩ := tagOf_listTraceStopped l₃ (l₁.length + 1) e' he'
    rw [hc']
    simp
    omega
  have hj5 : eventsTagged (l₁.length + 1 + l₃.length)
      (stoppedAcqEvents (l₁.length + 1 + l₃.length) b s.shared)
      = stoppedAcqEvents (l₁.length + 1 + l₃.length) b s.shared :=
    eventsTagged_all_of _ tagOf_stoppedAcqEvents
  have hj6 : eventsTagged (l₁.length + 1 + l₃.length)
      (listTraceStopped s.shared l₄ (l₁.length + 1 + l₃.length + 1)) = [] := by
    apply eventsTagged_nil_of
    intro e' he'
    obtain ⟨c', hc', hle, hlt⟩ :=
      tagOf_listTraceStopped l₄ (l₁.length + 1 + l₃.length + 1) e' he'
    rw [hc']
    simp
    omega
  have hj7 : eventsTagged (l₁.length + 1 + l₃.length)
      [Event.finished, Event.gui_update false] = [] := by
    apply eventsTagged_nil_of
    intro e' he'
    simp at he'
    rcases he' with rfl | rfl <;> simp [tagOf]
  simp only [List.nil_append, List.append_assoc, eventsTagged_append,
    hj1, hj2, hj3, hj4, hj5, hj6, hj7, List.append_nil]

/-- Witness for C9: a two-member list where the stop is observed at plane 1
of the first acquisition: the second acquisition still emits its full
prepare sequence (blocking move, blocking settings, series preparation,
task creation, metadata write) before the stop is observed at its plane 0. -/
theorem C9_witness :
    eventsTagged 1 (start (schedAt 0) [acqB, acqA] s0).trace
      = stoppedAcqEvents 1 acqA s0.shared :=
  C9_post_stop_prepare [] [acqA] [] [] acqB acqA 1 s0 rfl rfl (by decide)
    (by decide) (by decide) rfl

/-- C10: in a run stopped mid-acquisition (stop observed at plane k of
acquisition i = l₁.length, 1 ≤ k < pᵢ), the end-of-series signal is
emitted exactly twice for acquisition i and exactly twice for every later
acquisition j (whose loop observes the flag at plane 0): once when the
per-plane loop breaks and once more in `close_acquisition`.  On a run with
no stop request, every acquisition's end-of-series signal is emitted
exactly once. -/
theorem C10_end_series_counts (l₁ l₂ : List Acquisition) (a : Acquisition)
    (k : Nat) (s : CoreState) (hpe : s.pe_count = 0) (ht : s.trace = [])
    (hk1 : 1 ≤ k) (hk2 : k < a.get_image_count)
    (htail : ∀ c ∈ l₂, 1 ≤ c.get_image_count) :
    natCount l₁.length (endSeriesTags
        (start (schedAt (AcquisitionList.get_image_count l₁ + k - 1))
          (l₁ ++ a :: l₂) s).trace) = 2
    ∧ (∀ (l₃ : List Acquisition) (b : Acquisition) (l₄ : List Acquisition),
        l₂ = l₃ ++ b :: l₄ →
        natCount (l₁.length + 1 + l₃.length) (endSeriesTags
          (start (schedAt (AcquisitionList.get_image_count l₁ + k - 1))
            (l₁ ++ a :: l₂) s).trace) = 2)
    ∧ (∀ (l₃ : List Acquisition) (b : Acquisition) (l₄ : List Acquisition),
        l₁ ++ a :: l₂ = l₃ ++ b :: l₄ →
        natCount l₃.length (endSeriesTags
          (start schedNever (l₁ ++ a :: l₂) s).trace) = 1) := by
  obtain ⟨t, rfl⟩ : ∃ t, k = t + 1 := ⟨k - 1, by omega⟩
  have e : AcquisitionList.get_image_count l₁ + (t + 1) - 1
      = AcquisitionList.get_image_count l₁ + t := by omega
  rw [e]
  obtain ⟨htrS, _, _, _, _, _, _, _⟩ := start_scenario l₁ l₂ a t s hpe hk2 htail
  obtain ⟨htrN, _, _, _⟩ := start_never_facts (l₁ ++ a :: l₂) s
  rw [ht] at htrS htrN
  have hA : endSeriesTags [Event.gui_update true] = [] := rfl
  have hB : endSeriesTags [Event.finished, Event.gui_update false] = [] := rfl
  have hC : endSeriesTags [Event.move_absolute (l₁ ++ a :: l₂).length false,
      Event.finished, Event.gui_update false] = [] := rfl
  refine ⟨?_, ?_, ?_⟩
  · rw [htrS]
    simp only [List.nil_append, endSeriesTags_append, hA, hB,
      endSeriesTags_listTraceNormal, endSeriesTags_acqTraceStoppedAt,
      natCount_append, natCount_range', natCount_listTraceStopped, natCount]
    split_ifs <;> omega
  · intro l₃ b l₄ hdec
    rw [htrS]
    simp only [List.nil_append, endSeriesTags_append, hA, hB,
      endSeriesTags_listTraceNormal, endSeriesTags_acqTraceStoppedAt,
      natCount_append, natCount_range', natCount_listTraceStopped, natCount]
    have hlen : l₂.length = l₃.length + 1 + l₄.length := by
      rw [hdec]
      simp
      omega
    split_ifs <;> omega
  · intro l₃ b l₄ hdec
    rw [htrN]
    simp only [List.nil_append, endSeriesTags_append, hA, hC,
      endSeriesTags_listTraceNormal, natCount_append, natCount_range',
      natCount]
    have hlen : (l₁ ++ a :: l₂).length = l₃.length + 1 + l₄.length := by
      rw [hdec]
      simp
      omega
    split_ifs <;> omega

/-- Witness for C10: a two-member list with a stop observed at plane 1 of
the first acquisition: both acquisitions get their end-of-series signal
exactly twice; on the stop-free run of the same list each acquisition gets
it exactly once. -/
theorem C10_witness :
    natCount 0 (endSeriesTags (start (schedAt 0) [acqB, acqA] s0).trace) = 2
    ∧ natCount 1 (endSeriesTags (start (schedAt 0) [acqB, acqA] s0).trace) = 2
    ∧ natCount 0 (endSeriesTags (start schedNever [acqB, acqA] s0).trace) = 1 := by
  have h := C10_end_series_counts [] [acqA] acqB 1 s0 rfl rfl (by decide)
    (by decide) (by decide)
  exact ⟨h.1, h.2.1 [] acqA [] rfl, h.2.2 [] acqB [acqA] rfl⟩
